import Mathlib

/- Shallow embedding of the production-expense backend (Node/Express/Mongoose):
   the expense lifecycle (create / update / delete / approve / reject), bulk
   approval, the variance calculator, the month-lock gate, advances and the
   advance-balance ledger. JavaScript numbers are modelled as exact rationals,
   documents as structures, collections as lists kept in insertion order
   (Mongo natural order), and each controller as a function from a request and
   a store state to a response together with the successor state. -/

set_option maxHeartbeats 1600000

/-! ### Basic data model (Mongoose schemas) -/

/-- Expense.status enum: pending, approved, rejected. -/
inductive ExpStatus
  | pending
  | approved
  | rejected
deriving DecidableEq

/-- Advance.status enum: pending, completed, cancelled. -/
inductive AdvStatus
  | pending
  | completed
  | cancelled
deriving DecidableEq

/-- Authenticated roles carried on req.user.role. -/
inductive Role
  | user
  | admin
  | superadmin
deriving DecidableEq

/-- A JavaScript Date as the controllers consume it: getFullYear(),
    getMonth()+1 and the epoch timestamp used for sorting comparisons. -/
structure JsDate where
  year : Int
  month : Int
  t : Int
deriving DecidableEq

/-- User document (the fields the approval and ledger flows read). -/
structure User where
  id : Nat
  assignedTo : Option Nat
  advanceBalance : ℚ
deriving DecidableEq

/-- Journey document (the fields the approval flow reads). -/
structure Journey where
  id : Nat
  userId : Nat
  expenseId : Option Nat
  additionalExpensesTotal : ℚ
deriving DecidableEq

/-- Expense document, following the expense schema. Optional schema fields
    with no default are Option; systemDistance and manualDistance default 0. -/
structure Expense where
  id : Nat
  userId : Nat
  date : JsDate
  expenseCategory : String
  type : String
  journeyId : Option Nat
  description : String
  amount : ℚ
  distanceRate : Option ℚ
  systemDistance : ℚ
  manualDistance : ℚ
  adminDistance : Option ℚ
  status : ExpStatus
  approvedOption : Option Int
  approvedAmount : Option ℚ
  approvedBy : Option Nat
  adminNotes : String
  rejectionReason : Option String
  bulkApproved : Bool
deriving DecidableEq

/-- Advance document (payment metadata fields elided). -/
structure Advance where
  id : Nat
  userId : Nat
  amount : ℚ
  date : JsDate
  addedBy : Nat
  status : AdvStatus
  isDeleted : Bool
deriving DecidableEq

/-- MonthLock document; records are keyed by the unique compound index
    (userId, year, month). -/
structure MonthLock where
  userId : Nat
  year : Int
  month : Int
  isLocked : Bool
deriving DecidableEq

/-- The persistent store: one list per collection, in insertion order,
    plus a counter supplying fresh ObjectIds. -/
structure State where
  users : List User
  journeys : List Journey
  expenses : List Expense
  advances : List Advance
  monthLocks : List MonthLock
  nextId : Nat
deriving DecidableEq

/-- The authenticated caller (req.user). -/
structure Actor where
  userId : Nat
  role : Role
deriving DecidableEq

/-! ### Store primitives (Mongoose query/save semantics) -/

/-- Model.findById: first document with the given id, in natural order. -/
def findUser (s : State) (uid : Nat) : Option User :=
  s.users.find? (fun u => u.id = uid)

/-- Journey.findById. -/
def findJourney (s : State) (jid : Nat) : Option Journey :=
  s.journeys.find? (fun j => j.id = jid)

/-- Expense.findById. -/
def findExpense (s : State) (eid : Nat) : Option Expense :=
  s.expenses.find? (fun e => e.id = eid)

/-- MonthLock.findOne with a (year, month) filter: the first matching
    document in natural order, whichever user it belongs to. -/
def findMonthLockYM (s : State) (y m : Int) : Option MonthLock :=
  s.monthLocks.find? (fun l => l.year = y && l.month = m)

/-- Replace, in place, every document carrying the key of a: document.save
    writes the document back under its own id. -/
def setByKey {α : Type} (key : α → Nat) (l : List α) (a : α) : List α :=
  l.map (fun x => if key x = key a then a else x)

/-- expense.save() writing the document back into the collection. -/
def saveExpense (s : State) (e : Expense) : State :=
  { s with expenses := setByKey Expense.id s.expenses e }

/-- user.save(). -/
def saveUser (s : State) (u : User) : State :=
  { s with users := setByKey User.id s.users u }

/-- journey.save(). -/
def saveJourney (s : State) (j : Journey) : State :=
  { s with journeys := setByKey Journey.id s.journeys j }

/-! ### Variance calculator (utils/varianceCalculator.js) -/

/-- Number.prototype.toFixed(2) followed by parseFloat: round to two
    decimal places. -/
def toFixed2 (q : ℚ) : ℚ := (round (q * 100) : ℚ) / 100

/-- The Error values thrown by the variance calculator. The typeof guards
    of the JavaScript source are unrepresentable here because the embedding
    is typed; the corresponding constructor is kept for completeness. -/
inductive CalcErr
  | notNumbers
  | negativeDistance
  | negativeVariance
  | badOption
  | adminDistanceRequired
deriving DecidableEq

/-- calculateVariance: percentage variance between system and manual
    distances, formula |manual - system| / system * 100 rounded to two
    decimals; 0 when systemDistance is 0; negative inputs throw. -/
def calculateVariance (systemDistance manualDistance : ℚ) : Except CalcErr ℚ :=
  if systemDistance < 0 ∨ manualDistance < 0 then .error .negativeDistance
  else if systemDistance = 0 then .ok 0
  else .ok (toFixed2 (|manualDistance - systemDistance| / systemDistance * 100))

/-- Variance bands low / medium / high. -/
inductive VarCategory
  | low
  | medium
  | high
deriving DecidableEq

/-- getVarianceCategory: low when percentage is at most 10, medium when at
    most 20, high above; negative percentages throw. -/
def getVarianceCategory (variancePercentage : ℚ) : Except CalcErr VarCategory :=
  if variancePercentage < 0 then .error .negativeVariance
  else if variancePercentage ≤ 10 then .ok .low
  else if variancePercentage ≤ 20 then .ok .medium
  else .ok .high

/-- The JavaScript expression expense.distanceRate || 8: a missing or zero
    stored rate falls back to the default 8. -/
def rateOr8 (distanceRate : Option ℚ) : ℚ :=
  match distanceRate with
  | none => 8
  | some r => if r = 0 then 8 else r

/-- calculateApprovedAmount: option 1 prices systemDistance, option 2
    manualDistance, option 3 the adminDistance argument (required); the rate
    is expense.distanceRate || 8; the result is expense.amount plus the
    distance cost, rounded to two decimals. -/
def calculateApprovedAmount (expense : Expense) (approvedOption : Option Int)
    (adminDistance : Option ℚ) : Except CalcErr ℚ :=
  if approvedOption ≠ some 1 ∧ approvedOption ≠ some 2 ∧ approvedOption ≠ some 3 then
    .error .badOption
  else
    let rate := rateOr8 expense.distanceRate
    let distanceCostE : Except CalcErr ℚ :=
      if approvedOption = some 1 then .ok (expense.systemDistance * rate)
      else if approvedOption = some 2 then .ok (expense.manualDistance * rate)
      else
        match adminDistance with
        | none => .error .adminDistanceRequired
        | some d => .ok (d * rate)
    distanceCostE.map (fun distanceCost => toFixed2 (expense.amount + distanceCost))

/-! ### Claim C8: the variance formula -/

/-- C8: for every systemKm > 0 and non-negative manualKm the variance is
    |manualKm - systemKm| / systemKm * 100 rounded to 2 decimal places, and
    for systemKm = 0 the variance is 0 for every (non-negative) manualKm. -/
theorem c8_variance_formula :
    (∀ systemKm manualKm : ℚ, 0 < systemKm → 0 ≤ manualKm →
      calculateVariance systemKm manualKm
        = .ok (toFixed2 (|manualKm - systemKm| / systemKm * 100)))
    ∧ (∀ manualKm : ℚ, 0 ≤ manualKm → calculateVariance 0 manualKm = .ok 0) := by
  constructor
  · intro s m hs hm
    simp only [calculateVariance, if_neg, if_pos, not_or, not_lt]
    rw [if_neg (by push_neg; exact ⟨hs.le, hm⟩), if_neg (by exact hs.ne.symm)]
  · intro m hm
    simp only [calculateVariance]
    rw [if_neg (by push_neg; exact ⟨le_refl 0, hm⟩)]
    simp

/-- Witness for C8 at systemKm = 10, manualKm = 12 and at systemKm = 0. -/
theorem c8_variance_formula_witness :
    calculateVariance 10 12 = .ok (toFixed2 (|(12 : ℚ) - 10| / 10 * 100))
    ∧ calculateVariance 0 5 = .ok 0 :=
  ⟨c8_variance_formula.1 10 12 (by norm_num) (by norm_num),
   c8_variance_formula.2 5 (by norm_num)⟩

/-! ### Claim C9: the variance bands -/

/-- C9: the banding maps every non-negative percent p to low when p ≤ 10,
    medium when 10 < p ≤ 20 and high when p > 20; in particular 10.0 is low,
    10.01 medium, 20.0 medium and 20.01 high. -/
theorem c9_variance_category :
    (∀ p : ℚ, 0 ≤ p → p ≤ 10 → getVarianceCategory p = .ok .low)
    ∧ (∀ p : ℚ, 10 < p → p ≤ 20 → getVarianceCategory p = .ok .medium)
    ∧ (∀ p : ℚ, 20 < p → getVarianceCategory p = .ok .high)
    ∧ getVarianceCategory 10 = .ok .low
    ∧ getVarianceCategory (10.01 : ℚ) = .ok .medium
    ∧ getVarianceCategory 20 = .ok .medium
    ∧ getVarianceCategory (20.01 : ℚ) = .ok .high := by
  refine ⟨?_, ?_, ?_, ?_, ?_, ?_, ?_⟩
  · intro p h0 h10
    simp only [getVarianceCategory]
    rw [if_neg (by exact not_lt.mpr h0), if_pos h10]
  · intro p h10 h20
    simp only [getVarianceCategory]
    rw [if_neg (by exact not_lt.mpr (by linarith)), if_neg (by exact not_le.mpr h10),
      if_pos h20]
  · intro p h20
    simp only [getVarianceCategory]
    rw [if_neg (by exact not_lt.mpr (by linarith)), if_neg (by exact not_le.mpr (by linarith)),
      if_neg (by exact not_le.mpr h20)]
  · simp only [getVarianceCategory]
    norm_num
  · simp only [getVarianceCategory]
    norm_num
  · simp only [getVarianceCategory]
    norm_num
  · simp only [getVarianceCategory]
    norm_num

/-- Witness for C9 at percent 5 (low band). -/
theorem c9_variance_category_witness : getVarianceCategory 5 = .ok .low :=
  c9_variance_category.1 5 (by norm_num) (by norm_num)

/-! ### Schema validation run by document.save() -/

/-- The expense type enum of the expense schema. -/
def expenseTypeEnum : List String :=
  ["food", "lodging", "fuel", "tickets", "car_rental", "courier", "toll",
   "local_purchase", "transport_charges", "office_expense", "others",
   "journey", "accessories", "other"]

/-- Mongoose validation of an expense document on save: category and type
    enums, required non-empty description with its length cap, non-negative
    amounts, distances and rates, approvedOption in 1..3, note length caps,
    and the pre-save hook requiring journeyId for journey-category rows. -/
def expenseSchemaValid (e : Expense) : Bool :=
  (e.expenseCategory = "general" || e.expenseCategory = "journey")
  && expenseTypeEnum.contains e.type
  && (e.description ≠ "") && e.description.length ≤ 500
  && (0 ≤ e.amount)
  && (0 ≤ e.systemDistance) && (0 ≤ e.manualDistance)
  && (match e.adminDistance with | none => true | some d => 0 ≤ d)
  && (match e.distanceRate with | none => true | some r => 0 ≤ r)
  && (match e.approvedAmount with | none => true | some a => 0 ≤ a)
  && (match e.approvedOption with | none => true | some o => o = 1 || o = 2 || o = 3)
  && e.adminNotes.length ≤ 1000
  && (match e.rejectionReason with | none => true | some r => r.length ≤ 500)
  && (!(e.expenseCategory = "journey") || e.journeyId.isSome)

/-! ### Error taxonomy of the controller responses -/

/-- The distinct failure responses of the embedded controllers, one
    constructor per res.status(...).json site or caught save error. -/
inductive ApiErr
  | forbiddenRole
  | notFound
  | accessDenied
  | alreadyProcessed (status : ExpStatus)
  | periodLocked
  | calcFailed (e : CalcErr)
  | journeyGone
  | userGone
  | journeyRequired
  | cannotDeleteApproved
  | validationFailed
  | alreadyLocked
  | noPendingFound
  | emptyIds
deriving DecidableEq

/-- Boolean success flag of a controller response. -/
def resultOk {ε α : Type} (r : Except ε α) : Bool :=
  match r with
  | .ok _ => true
  | .error _ => false

/-- Decidable equality on response values, so concrete controller runs can
    be checked by evaluation. -/
instance exceptDecEq {ε α : Type} [DecidableEq ε] [DecidableEq α] :
    DecidableEq (Except ε α) := fun a b =>
  match a, b with
  | .ok x, .ok y =>
    if h : x = y then .isTrue (congrArg Except.ok h)
    else .isFalse (fun hc => h (Except.ok.inj hc))
  | .error x, .error y =>
    if h : x = y then .isTrue (congrArg Except.error h)
    else .isFalse (fun hc => h (Except.error.inj hc))
  | .ok _, .error _ => .isFalse (fun hc => Except.noConfusion hc)
  | .error _, .ok _ => .isFalse (fun hc => Except.noConfusion hc)

/-! ### Month-lock gate and MonthLock statics -/

/-- The gate used by every expense mutation: look the month up by
    (year, month) alone and read isLocked off the first match. -/
def monthIsLocked (s : State) (d : JsDate) : Bool :=
  match findMonthLockYM s d.year d.month with
  | some lock => lock.isLocked
  | none => false

/-- Mongoose validation of a MonthLock document: month 1..12, year
    2020..2100. -/
def monthLockKeyValid (year month : Int) : Bool :=
  (1 ≤ month) && (month ≤ 12) && (2020 ≤ year) && (year ≤ 2100)

/-- MonthLock.createLock(userId, year, month, ...): reject when that user
    month is already locked, otherwise create or re-lock the record under
    the unique (userId, year, month) key. -/
def createLock (s : State) (userId : Nat) (year month : Int) :
    Except ApiErr MonthLock × State :=
  if ¬ monthLockKeyValid year month then (.error .validationFailed, s)
  else
    match s.monthLocks.find? (fun l => l.userId = userId && l.year = year && l.month = month) with
    | some existing =>
      if existing.isLocked then (.error .alreadyLocked, s)
      else
        let lock := { existing with isLocked := true }
        (.ok lock, { s with monthLocks := s.monthLocks.map (fun l =>
          if l.userId = userId && l.year = year && l.month = month then lock else l) })
    | none =>
      let lock : MonthLock := { userId := userId, year := year, month := month, isLocked := true }
      (.ok lock, { s with monthLocks := s.monthLocks ++ [lock] })

/-- monthLock.unlock(unlockedBy, reason): clear isLocked on the fetched
    record, keyed by (userId, year, month). -/
def unlockMonth (s : State) (userId : Nat) (year month : Int) :
    Except ApiErr MonthLock × State :=
  match s.monthLocks.find? (fun l => l.userId = userId && l.year = year && l.month = month) with
  | none => (.error .notFound, s)
  | some lock =>
    let l1 := { lock with isLocked := false }
    (.ok l1, { s with monthLocks := s.monthLocks.map (fun l =>
      if l.userId = userId && l.year = year && l.month = month then l1 else l) })

/-! ### Approval controller -/

/-- The RBAC block of approveExpense and rejectExpense: an admin may only
    act on expenses of users assigned to them. -/
def approverRbac (s : State) (actor : Actor) (expense : Expense) : Except ApiErr Unit :=
  if actor.role = .admin then
    match findUser s expense.userId with
    | none => .error .userGone
    | some owner =>
      if owner.assignedTo ≠ some actor.userId then .error .accessDenied else .ok ()
  else .ok ()

/-- The field updates approveExpense writes onto the expense document
    before saving: approved status, amount, approver, notes, and (journey
    rows only) the chosen option and an option-3 admin distance. -/
def approvedExpenseDoc (actor : Actor) (approvedOption : Option Int)
    (adminDistance : Option ℚ) (adminNotes : Option String)
    (expense : Expense) (approvedAmount : ℚ) : Expense :=
  { expense with
    status := .approved
    approvedAmount := some approvedAmount
    approvedBy := some actor.userId
    adminNotes := adminNotes.getD ""
    approvedOption :=
      if expense.type = "journey" then approvedOption else expense.approvedOption
    adminDistance :=
      if expense.type = "journey" ∧ approvedOption = some 3 ∧ adminDistance.isSome
      then adminDistance else expense.adminDistance }

/-- The side effects of a successful approval, after the approved document
    is built: save it, bump the linked journey running total when the
    journey resolves (a failed journey save aborts with the expense already
    written), then debit the owning user balance. -/
def approveApplyEffects (s : State) (e1 : Expense) (approvedAmount : ℚ) :
    Except ApiErr Expense × State :=
  let s1 := saveExpense s e1
  let finishWithBalance : State → Except ApiErr Expense × State := fun s2 =>
    match findUser s2 e1.userId with
    | none => (.error .userGone, s2)
    | some user =>
      (.ok e1, saveUser s2
        { user with advanceBalance := user.advanceBalance - approvedAmount })
  match e1.journeyId with
  | some jid =>
    match findJourney s1 jid with
    | none => (.error .journeyGone, s1)
    | some journey =>
      let j1 := { journey with
        additionalExpensesTotal := journey.additionalExpensesTotal + approvedAmount }
      if j1.additionalExpensesTotal < 0 then (.error .validationFailed, s1)
      else finishWithBalance (saveJourney s1 j1)
  | none => finishWithBalance s1

/-- approveExpense (POST /api/expenses/:id/approve): role gate, lookup,
    RBAC, pending check, month-lock gate, amount computation (journey rows
    through calculateApprovedAmount, other rows use the stored amount),
    then save the approved document, bump the linked journey running total,
    and debit the owning user balance. -/
def approveExpense (s : State) (actor : Actor) (id : Nat) (approvedOption : Option Int)
    (adminDistance : Option ℚ) (adminNotes : Option String) :
    Except ApiErr Expense × State :=
  if actor.role ≠ .admin ∧ actor.role ≠ .superadmin then (.error .forbiddenRole, s)
  else
    match findExpense s id with
    | none => (.error .notFound, s)
    | some expense =>
      match approverRbac s actor expense with
      | .error err => (.error err, s)
      | .ok _ =>
        if expense.status ≠ .pending then (.error (.alreadyProcessed expense.status), s)
        else if monthIsLocked s expense.date then (.error .periodLocked, s)
        else
          let amountE : Except CalcErr ℚ :=
            if expense.type = "journey" then
              calculateApprovedAmount expense approvedOption adminDistance
            else .ok expense.amount
          match amountE with
          | .error cerr => (.error (.calcFailed cerr), s)
          | .ok approvedAmount =>
            let e1 : Expense :=
              approvedExpenseDoc actor approvedOption adminDistance adminNotes
                expense approvedAmount
            if ¬ expenseSchemaValid e1 then (.error .validationFailed, s)
            else approveApplyEffects s e1 approvedAmount

/-- rejectExpense (POST /api/expenses/:id/reject): same role gate, RBAC,
    pending check and month-lock gate as approval, then store the rejected
    status and reason. No journey or balance side effects. -/
def rejectExpense (s : State) (actor : Actor) (id : Nat) (rejectionReason : Option String) :
    Except ApiErr Expense × State :=
  if actor.role ≠ .admin ∧ actor.role ≠ .superadmin then (.error .forbiddenRole, s)
  else
    match findExpense s id with
    | none => (.error .notFound, s)
    | some expense =>
      match approverRbac s actor expense with
      | .error err => (.error err, s)
      | .ok _ =>
        if expense.status ≠ .pending then (.error (.alreadyProcessed expense.status), s)
        else if monthIsLocked s expense.date then (.error .periodLocked, s)
        else
          let e1 := { expense with
            status := .rejected
            rejectionReason := rejectionReason
            approvedBy := some actor.userId }
          if ¬ expenseSchemaValid e1 then (.error .validationFailed, s)
          else (.ok e1, saveExpense s e1)

/-! ### Expense controller: create, update, delete -/

/-- Request body of POST /api/expenses. -/
structure CreateReq where
  type : String
  expenseCategory : Option String
  date : JsDate
  description : String
  amount : ℚ
  journeyId : Option Nat
  systemDistance : Option ℚ
  manualDistance : Option ℚ
  distanceRate : Option ℚ
deriving DecidableEq

/-- The new Expense document built by createExpense: journey-only fields
    are stored only for journey-typed rows, the rest fall back to schema
    defaults. -/
def newExpenseDoc (s : State) (userId : Nat) (r : CreateReq) (category : String) : Expense :=
  { id := s.nextId
    userId := userId
    date := r.date
    expenseCategory := category
    type := r.type
    journeyId := if category = "journey" ∨ r.type = "journey" then r.journeyId else none
    description := r.description
    amount := r.amount
    distanceRate := if r.type = "journey" then r.distanceRate else none
    systemDistance := if r.type = "journey" then r.systemDistance.getD 0 else 0
    manualDistance := if r.type = "journey" then r.manualDistance.getD 0 else 0
    adminDistance := none
    status := .pending
    approvedOption := none
    approvedAmount := none
    approvedBy := none
    adminNotes := ""
    rejectionReason := none
    bulkApproved := false }

/-- expense.save() on a fresh document: validate, then append to the
    collection and advance the id counter. -/
def insertExpense (s : State) (e : Expense) : Except ApiErr Expense × State :=
  if ¬ expenseSchemaValid e then (.error .validationFailed, s)
  else (.ok e, { s with expenses := s.expenses ++ [e], nextId := s.nextId + 1 })

/-- createExpense (POST /api/expenses): month-lock gate on the requested
    date, journey validation, and the merge path adding the amount onto the
    existing expense of a journey that already has one. -/
def createExpense (s : State) (userId : Nat) (r : CreateReq) : Except ApiErr Expense × State :=
  if monthIsLocked s r.date then (.error .periodLocked, s)
  else
    let category := r.expenseCategory.getD "general"
    if category = "journey" ∧ r.journeyId = none then (.error .journeyRequired, s)
    else
      match r.journeyId with
      | some jid =>
        if category = "journey" ∨ r.type = "journey" then
          match findJourney s jid with
          | none => (.error .journeyGone, s)
          | some journey =>
            if journey.userId ≠ userId then (.error .accessDenied, s)
            else
              match journey.expenseId with
              | some eid =>
                match findExpense s eid with
                | some existing =>
                  let e1 := { existing with amount := existing.amount + r.amount }
                  if ¬ expenseSchemaValid e1 then (.error .validationFailed, s)
                  else (.ok e1, saveExpense s e1)
                | none => insertExpense s (newExpenseDoc s userId r category)
              | none => insertExpense s (newExpenseDoc s userId r category)
        else insertExpense s (newExpenseDoc s userId r category)
      | none => insertExpense s (newExpenseDoc s userId r category)

/-- Request body of PUT /api/expenses/:id. -/
structure UpdateReq where
  type : Option String
  date : Option JsDate
  description : Option String
  amount : Option ℚ
  manualDistance : Option ℚ
deriving DecidableEq

/-- updateExpense (PUT /api/expenses/:id): owner-or-admin permission,
    pending-only, month-lock gate on the stored date, then field updates
    (manualDistance only for journey-typed rows, judged after a type
    update). -/
def updateExpense (s : State) (actor : Actor) (id : Nat) (r : UpdateReq) :
    Except ApiErr Expense × State :=
  match findExpense s id with
  | none => (.error .notFound, s)
  | some expense =>
    if actor.role ≠ .admin ∧ expense.userId ≠ actor.userId then (.error .accessDenied, s)
    else if expense.status ≠ .pending then (.error (.alreadyProcessed expense.status), s)
    else if monthIsLocked s expense.date then (.error .periodLocked, s)
    else
      let newType := r.type.getD expense.type
      let e1 := { expense with
        type := newType
        date := r.date.getD expense.date
        description := r.description.getD expense.description
        amount := r.amount.getD expense.amount
        manualDistance :=
          if r.manualDistance.isSome ∧ newType = "journey" then
            r.manualDistance.getD expense.manualDistance
          else expense.manualDistance }
      if ¬ expenseSchemaValid e1 then (.error .validationFailed, s)
      else (.ok e1, saveExpense s e1)

/-- deleteExpense (DELETE /api/expenses/:id): owner-or-admin permission,
    approved rows cannot be deleted, month-lock gate on the stored date,
    then remove the document. -/
def deleteExpense (s : State) (actor : Actor) (id : Nat) : Except ApiErr Expense × State :=
  match findExpense s id with
  | none => (.error .notFound, s)
  | some expense =>
    if actor.role ≠ .admin ∧ expense.userId ≠ actor.userId then (.error .accessDenied, s)
    else if expense.status = .approved then (.error .cannotDeleteApproved, s)
    else if monthIsLocked s expense.date then (.error .periodLocked, s)
    else (.ok expense, { s with expenses := s.expenses.eraseP (fun x => x.id = id) })

/-! ### Advance controller -/

/-- addAdvance (POST /api/advances): user lookup, admin assignment RBAC,
    then save a completed advance and credit the user balance (negative
    balances allowed, plain addition). -/
def addAdvance (s : State) (actor : Actor) (userId : Nat) (amount : ℚ) (date : JsDate) :
    Except ApiErr Advance × State :=
  match findUser s userId with
  | none => (.error .notFound, s)
  | some user =>
    if actor.role = .admin ∧ user.assignedTo ≠ some actor.userId then (.error .accessDenied, s)
    else if amount < 1 / 100 then (.error .validationFailed, s)
    else
      let advance : Advance :=
        { id := s.nextId
          userId := userId
          amount := amount
          date := date
          addedBy := actor.userId
          status := .completed
          isDeleted := false }
      let s1 := { s with
        advances := s.advances ++ [advance]
        nextId := s.nextId + 1 }
      (.ok advance, saveUser s1 { user with advanceBalance := user.advanceBalance + amount })

/-! ### Bulk approval controller -/

/-- One approved entry of the bulk result. -/
structure BulkApprovedEntry where
  expenseId : Nat
  userId : Nat
  approvedAmount : ℚ
deriving DecidableEq

/-- One failed entry of the bulk result, with its reason. -/
structure BulkFailedEntry where
  expenseId : Nat
  reason : ApiErr
deriving DecidableEq

/-- The running results object of bulkApproveExpenses. -/
structure BulkResults where
  approved : List BulkApprovedEntry
  failed : List BulkFailedEntry
  totalApproved : Nat
  totalFailed : Nat
  totalAmount : ℚ
deriving DecidableEq

/-- The empty results accumulator. -/
def emptyBulkResults : BulkResults := ⟨[], [], 0, 0, 0⟩

/-- The response payload of bulkApproveExpenses. -/
structure BulkData where
  results : BulkResults
  totalFiltered : Nat
deriving DecidableEq

/-- The field updates the bulk loop writes onto an expense before saving:
    approved status, amount, approver, notes, the bulk flag, and, for every
    row regardless of type, the requested option. -/
def bulkApprovedDoc (actor : Actor) (approvedOption : Option Int)
    (adminNotes : Option String) (expense : Expense) (approvedAmount : ℚ) : Expense :=
  { expense with
    status := .approved
    approvedOption := approvedOption
    approvedAmount := some approvedAmount
    approvedBy := some actor.userId
    adminNotes := adminNotes.getD ""
    bulkApproved := true }

/-- One iteration of the bulk-approval loop: month-lock gate, amount
    computation, save of the approved document, best-effort journey total
    bump (a missing journey is only logged), balance debit; every failure
    is pushed onto failed and the loop moves on. -/
def bulkItem (actor : Actor) (approvedOption : Option Int) (adminNotes : Option String)
    (acc : State × BulkResults) (expense : Expense) : State × BulkResults :=
  let s := acc.1
  let res := acc.2
  let fail : ApiErr → State → State × BulkResults := fun err s1 =>
    (s1, { res with
      failed := res.failed ++ [⟨expense.id, err⟩]
      totalFailed := res.totalFailed + 1 })
  if monthIsLocked s expense.date then fail .periodLocked s
  else
    let amountE : Except CalcErr ℚ :=
      if expense.type = "journey" then calculateApprovedAmount expense approvedOption none
      else .ok expense.amount
    match amountE with
    | .error cerr => fail (.calcFailed cerr) s
    | .ok approvedAmount =>
      let e1 := bulkApprovedDoc actor approvedOption adminNotes expense approvedAmount
      if ¬ expenseSchemaValid e1 then fail .validationFailed s
      else
        let s1 := saveExpense s e1
        let withJourneyE : Except ApiErr State :=
          match e1.journeyId with
          | some jid =>
            match findJourney s1 jid with
            | none => .ok s1
            | some journey =>
              let j1 := { journey with
                additionalExpensesTotal := journey.additionalExpensesTotal + approvedAmount }
              if j1.additionalExpensesTotal < 0 then .error .validationFailed
              else .ok (saveJourney s1 j1)
          | none => .ok s1
        match withJourneyE with
        | .error err => fail err s1
        | .ok s2 =>
          match findUser s2 e1.userId with
          | none => fail .userGone s2
          | some user =>
            let s3 := saveUser s2
              { user with advanceBalance := user.advanceBalance - approvedAmount }
            (s3, { res with
              approved := res.approved ++ [⟨e1.id, e1.userId, approvedAmount⟩]
              totalApproved := res.totalApproved + 1
              totalAmount := res.totalAmount + approvedAmount })

/-- Expense.find with id-in-list and pending-status filters, in natural
    collection order. -/
def bulkPending (s : State) (expenseIds : List Nat) : List Expense :=
  s.expenses.filter (fun e => expenseIds.contains e.id && e.status = .pending)

/-- Ids of the users assigned to a given admin. -/
def assignedUserIds (s : State) (adminId : Nat) : List Nat :=
  (s.users.filter (fun u => u.assignedTo = some adminId)).map (fun u => u.id)

/-- The RBAC filter of bulkApproveExpenses. -/
def bulkAccessible (s : State) (actor : Actor) (expenses : List Expense) : List Expense :=
  if actor.role = .admin then
    expenses.filter (fun e => (assignedUserIds s actor.userId).contains e.userId)
  else expenses

/-- The variance threshold filter of bulkApproveExpenses: journey rows with
    a nonzero system distance and raw variance above the threshold are
    dropped; everything else passes; a negative threshold disables the
    filter. -/
def bulkVarianceFiltered (expenses : List Expense) (maxVariance : Option ℚ) : List Expense :=
  match maxVariance with
  | none => expenses
  | some threshold =>
    if 0 ≤ threshold then
      expenses.filter (fun e =>
        if e.type ≠ "journey" then true
        else if e.systemDistance ≠ 0 then
          |e.manualDistance - e.systemDistance| / e.systemDistance * 100 ≤ threshold
        else true)
    else expenses

/-- bulkApproveExpenses (POST /api/expenses/bulk-approve): fetch pending
    expenses among the requested ids in collection order, apply the RBAC
    and variance filters, then fold the per-item loop over the filtered
    list; totalFiltered counts everything the filters dropped. -/
def bulkApproveExpenses (s : State) (actor : Actor) (expenseIds : List Nat)
    (approvedOption : Option Int) (adminNotes : Option String) (maxVariance : Option ℚ) :
    Except ApiErr BulkData × State :=
  if actor.role ≠ .admin ∧ actor.role ≠ .superadmin then (.error .forbiddenRole, s)
  else if expenseIds = [] then (.error .emptyIds, s)
  else
    let expenses := bulkPending s expenseIds
    if expenses = [] then (.error .noPendingFound, s)
    else
      let accessibleExpenses := bulkAccessible s actor expenses
      if actor.role = .admin ∧ accessibleExpenses = [] then (.error .accessDenied, s)
      else
        let filteredExpenses := bulkVarianceFiltered accessibleExpenses maxVariance
        let out := filteredExpenses.foldl (bulkItem actor approvedOption adminNotes)
          (s, emptyBulkResults)
        (.ok ⟨out.2, expenses.length - filteredExpenses.length⟩, out.1)

/-! ### Result projections -/

/-- The approvedAmount carried by a successful approval response. -/
def approvedAmountOf (r : Except ApiErr Expense) : Option ℚ :=
  match r with
  | .ok e => e.approvedAmount
  | .error _ => none

/-! ### Claim C10: rejection frame -/

/-- C10: rejectExpense never mutates any user (hence no advanceBalance)
    nor any journey (hence no additionalExpensesTotal), on every path,
    success or failure. -/
theorem c10_reject_frame (s : State) (actor : Actor) (id : Nat) (reason : Option String) :
    (rejectExpense s actor id reason).2.users = s.users
    ∧ (rejectExpense s actor id reason).2.journeys = s.journeys := by
  unfold rejectExpense
  dsimp only
  repeat' split
  all_goals exact ⟨rfl, rfl⟩

/-! ### Claim C1: the approved-amount formula -/

/-- Spec-side formula for the amended claim C1: a journey-typed row is
    approved at amount + selectedDistance * rate rounded to two decimals,
    with rate = distanceRate || 8 and the distance selected by option
    1 = system, 2 = manual, 3 = admin; any other row is approved at exactly
    its stored amount, with no distance cost. -/
def specApprovedAmount (e : Expense) (opt : Option Int) (adminDistance : Option ℚ) : ℚ :=
  if e.type = "journey" then
    toFixed2 (e.amount +
      (if opt = some 1 then e.systemDistance
       else if opt = some 2 then e.manualDistance
       else adminDistance.getD 0) * rateOr8 e.distanceRate)
  else e.amount

/-- Successful runs of calculateApprovedAmount return exactly the
    distance-priced formula. -/
theorem calculateApprovedAmount_ok (e : Expense) (opt : Option Int) (d : Option ℚ) (amt : ℚ)
    (h : calculateApprovedAmount e opt d = .ok amt) :
    amt = toFixed2 (e.amount +
      (if opt = some 1 then e.systemDistance
       else if opt = some 2 then e.manualDistance
       else d.getD 0) * rateOr8 e.distanceRate) := by
  unfold calculateApprovedAmount at h
  by_cases h1 : opt = some 1
  · subst h1
    simp [Except.map] at h
    simpa using h.symm
  · by_cases h2 : opt = some 2
    · subst h2
      simp [Except.map] at h
      simpa [h1] using h.symm
    · by_cases h3 : opt = some 3
      · subst h3
        cases d with
        | none => simp [Except.map] at h
        | some dd =>
          simp [Except.map] at h
          simpa [h1, h2] using h.symm
      · simp [h1, h2, h3, Except.map] at h

/-- Shape of a successful single approval: the returned document is the
    saved approvedExpenseDoc and its amount came from the journey /
    non-journey amount computation. -/
theorem approveExpense_ok_shape (s : State) (actor : Actor) (id : Nat) (opt : Option Int)
    (d : Option ℚ) (notes : Option String) (e e1 : Expense)
    (hfind : findExpense s id = some e)
    (hok : (approveExpense s actor id opt d notes).1 = .ok e1) :
    ∃ amt : ℚ,
      e1 = approvedExpenseDoc actor opt d notes e amt
      ∧ (if e.type = "journey" then calculateApprovedAmount e opt d
         else .ok e.amount) = .ok amt := by
  have heff : ∀ (s2 : State) (x e2 : Expense) (amt : ℚ),
      (approveApplyEffects s2 e2 amt).1 = .ok x → x = e2 := by
    intro s2 x e2 amt h
    unfold approveApplyEffects at h
    dsimp only at h
    repeat' split at h
    all_goals simp_all
  unfold approveExpense at hok
  rw [hfind] at hok
  dsimp only at hok
  split at hok
  · simp at hok
  split at hok
  · simp at hok
  split at hok
  · simp at hok
  split at hok
  · simp at hok
  split at hok
  case h_1 cerr hcalc => simp at hok
  case h_2 amt hcalc =>
    split at hok
    · simp at hok
    · exact ⟨amt, (heff _ _ _ _ hok).symm ▸ ⟨rfl, hcalc⟩⟩

/-- Fixture for C1: a pending non-journey expense (type food) that carries
    a nonzero systemDistance and a stored positive distanceRate. -/
def c1Expense : Expense :=
  { id := 10
    userId := 1
    date := { year := 2025, month := 6, t := 100 }
    expenseCategory := "general"
    type := "food"
    journeyId := none
    description := "team lunch"
    amount := 100
    distanceRate := some 8
    systemDistance := 10
    manualDistance := 0
    adminDistance := none
    status := .pending
    approvedOption := none
    approvedAmount := none
    approvedBy := none
    adminNotes := ""
    rejectionReason := none
    bulkApproved := false }

/-- Fixture for C1: the store holding c1Expense and its owner. -/
def c1State : State :=
  { users := [⟨1, none, 0⟩, ⟨2, none, 0⟩]
    journeys := []
    expenses := [c1Expense]
    advances := []
    monthLocks := []
    nextId := 50 }

/-- C1 counterexample: approving the non-journey expense c1Expense
    (amount 100, systemDistance 10, stored rate 8) with option 1 succeeds
    with approvedAmount 100, the stored amount alone, while the claimed
    formula amount + selectedDistance * distanceRate gives 180. -/
theorem c1_counterexample :
    approvedAmountOf (approveExpense c1State ⟨2, .superadmin⟩ 10 (some 1) none none).1
      = some 100
    ∧ c1Expense.amount + c1Expense.systemDistance * rateOr8 c1Expense.distanceRate = 180
    ∧ (100 : ℚ) ≠ 180 :=
  ⟨by decide, by norm_num [c1Expense, rateOr8], by norm_num⟩

/-- C1 (amended): every expense approved by approveExpense or a
    bulkApproveExpenses item gets, when journey-typed,
    approvedAmount = toFixed2 (amount + selectedDistance * (distanceRate
    or default 8)) with option 1 = systemDistance, 2 = manualDistance,
    3 = the request adminDistance (absent in bulk), and, for every other
    type, approvedAmount = the stored amount with no distance cost. -/
theorem c1_approved_amount :
    (∀ (s : State) (actor : Actor) (id : Nat) (opt : Option Int) (d : Option ℚ)
        (notes : Option String) (e e1 : Expense),
      findExpense s id = some e →
      (approveExpense s actor id opt d notes).1 = .ok e1 →
      e1.approvedAmount = some (specApprovedAmount e opt d))
    ∧ (∀ (actor : Actor) (opt : Option Int) (notes : Option String)
        (s : State) (res : BulkResults) (e : Expense) (entry : BulkApprovedEntry),
      (bulkItem actor opt notes (s, res) e).2.approved = res.approved ++ [entry] →
      entry.approvedAmount = specApprovedAmount e opt none) := by
  constructor
  · intro s actor id opt d notes e e1 hfind hok
    obtain ⟨amt, hdoc, hamt⟩ := approveExpense_ok_shape s actor id opt d notes e e1 hfind hok
    subst hdoc
    show some amt = some (specApprovedAmount e opt d)
    unfold specApprovedAmount
    by_cases ht : e.type = "journey"
    · rw [if_pos ht] at hamt ⊢
      exact congrArg some (calculateApprovedAmount_ok e opt d amt hamt)
    · rw [if_neg ht] at hamt ⊢
      exact congrArg some (Except.ok.inj hamt).symm
  · intro actor opt notes s res e entry happ
    unfold bulkItem at happ
    dsimp only at happ
    split at happ
    · simp at happ
    split at happ
    · simp at happ
    rename_i amt hamt
    split at happ
    · simp at happ
    repeat' split at happ
    all_goals simp only [Prod.snd, bulkApprovedDoc] at happ
    all_goals first
      | (rw [List.self_eq_append_right] at happ
         exact absurd happ (List.cons_ne_nil _ _))
      | (have hentry : entry = ⟨e.id, e.userId, amt⟩ := by
           simpa using (List.append_cancel_left happ).symm
         subst hentry
         show amt = specApprovedAmount e opt none
         unfold specApprovedAmount
         by_cases ht : e.type = "journey"
         · rw [if_pos ht] at hamt
           rw [if_pos ht]
           simpa using calculateApprovedAmount_ok e opt none amt hamt
         · rw [if_neg ht] at hamt
           rw [if_neg ht]
           exact (Except.ok.inj hamt).symm)

/-- Witness for C1 (amended): the single-approval conjunct applied to the
    concrete run of the counterexample state. -/
theorem c1_approved_amount_witness :
    (approvedExpenseDoc ⟨2, .superadmin⟩ (some 1) none none c1Expense 100).approvedAmount
      = some (specApprovedAmount c1Expense (some 1) none) :=
  c1_approved_amount.1 c1State ⟨2, .superadmin⟩ 10 (some 1) none none c1Expense
    (approvedExpenseDoc ⟨2, .superadmin⟩ (some 1) none none c1Expense 100)
    (by decide) (by decide)

/-! ### Claim C2: rate handling during journey approval -/

/-- Fixture for C2: a pending journey expense whose stored distanceRate is
    absent. -/
def c2Expense : Expense :=
  { id := 10
    userId := 1
    date := { year := 2025, month := 6, t := 100 }
    expenseCategory := "journey"
    type := "journey"
    journeyId := some 20
    description := "city trip"
    amount := 100
    distanceRate := none
    systemDistance := 10
    manualDistance := 10
    adminDistance := none
    status := .pending
    approvedOption := none
    approvedAmount := none
    approvedBy := none
    adminNotes := ""
    rejectionReason := none
    bulkApproved := false }

/-- Fixture for C2: the store holding c2Expense, its journey and owner. -/
def c2State : State :=
  { users := [⟨1, none, 0⟩, ⟨2, none, 0⟩]
    journeys := [⟨20, 1, some 10, 0⟩]
    expenses := [c2Expense]
    advances := []
    monthLocks := []
    nextId := 50 }

/-- C2 counterexample: the journey expense c2Expense stores no
    distanceRate (not a positive number), yet approval succeeds instead of
    failing MissingRate, pricing the distance at the substituted default
    rate 8: approvedAmount = 100 + 10 * 8 = 180. -/
theorem c2_counterexample :
    c2Expense.distanceRate = none
    ∧ approvedAmountOf (approveExpense c2State ⟨2, .superadmin⟩ 10 (some 1) none none).1
        = some 180 := by
  constructor
  · rfl
  · norm_num [approveExpense, approvedAmountOf, c2State, c2Expense, findExpense,
      approverRbac, findUser, monthIsLocked, findMonthLockYM, calculateApprovedAmount,
      rateOr8, toFixed2, round_eq, Except.map, expenseSchemaValid, expenseTypeEnum,
      approvedExpenseDoc, approveApplyEffects, saveExpense, saveJourney, setByKey,
      findJourney, List.find?, List.filter]
    decide

/-- C2 (amended): journey approval never fails for a missing or zero rate;
    the rate priced is expense.distanceRate || 8, so a stored positive rate
    is used exactly as stored (no substitution, and the approval path
    performs no rate lookup), while a missing or zero rate is silently
    replaced by the default 8; the only amount-computation failures are a
    bad option or a missing option-3 admin distance. -/
theorem c2_rate_behavior :
    (∀ (e : Expense) (opt : Option Int) (d : Option ℚ),
      calculateApprovedAmount e opt d
        = calculateApprovedAmount
            { e with distanceRate := some (rateOr8 e.distanceRate) } opt d)
    ∧ (∀ r : ℚ, 0 < r → rateOr8 (some r) = r)
    ∧ rateOr8 none = 8
    ∧ rateOr8 (some 0) = 8
    ∧ (∀ (e : Expense) (opt : Option Int) (d : Option ℚ) (c : CalcErr),
      calculateApprovedAmount e opt d = .error c →
      c = .badOption ∨ c = .adminDistanceRequired) := by
  refine ⟨?_, ?_, ?_, ?_, ?_⟩
  · intro e opt d
    have hidem : rateOr8 (some (rateOr8 e.distanceRate)) = rateOr8 e.distanceRate := by
      unfold rateOr8
      cases e.distanceRate with
      | none => norm_num
      | some r =>
        by_cases hr : r = 0
        · simp [hr]
        · simp [hr]
    simp only [calculateApprovedAmount, hidem]
  · intro r hr
    simp [rateOr8, hr.ne.symm]
  · rfl
  · simp [rateOr8]
  · intro e opt d c h
    unfold calculateApprovedAmount at h
    split at h
    · exact Or.inl (Except.error.inj h).symm
    · dsimp only at h
      split at h
      · simp [Except.map] at h
      split at h
      · simp [Except.map] at h
      split at h
      · simp [Except.map] at h
        exact Or.inr h.symm
      · simp [Except.map] at h

/-- Witness for C2 (amended) at the concrete journey expense c2Expense and
    a concrete positive rate. -/
theorem c2_rate_behavior_witness :
    calculateApprovedAmount c2Expense (some 1) none
      = calculateApprovedAmount
          { c2Expense with distanceRate := some (rateOr8 c2Expense.distanceRate) } (some 1) none
    ∧ rateOr8 (some 5) = 5 :=
  ⟨c2_rate_behavior.1 c2Expense (some 1) none, c2_rate_behavior.2.1 5 (by norm_num)⟩

/-! ### Claim C7: the month-lock gate ignores the lock owner -/

/-- The RBAC pass condition of approveExpense and rejectExpense: a
    superadmin, or an admin the expense owner is assigned to. -/
def ApproverOk (s : State) (actor : Actor) (e : Expense) : Prop :=
  actor.role = .superadmin
  ∨ (actor.role = .admin ∧ ∃ owner, findUser s e.userId = some owner
      ∧ owner.assignedTo = some actor.userId)

/-- An actor passing ApproverOk clears both the role gate and the RBAC
    block. -/
theorem approverRbac_ok (s : State) (actor : Actor) (e : Expense)
    (h : ApproverOk s actor e) :
    approverRbac s actor e = .ok ()
    ∧ ¬(actor.role ≠ .admin ∧ actor.role ≠ .superadmin) := by
  unfold approverRbac
  rcases h with hsa | ⟨hadm, owner, hfind, hass⟩
  · refine ⟨by rw [if_neg (by simp [hsa])], by simp [hsa]⟩
  · refine ⟨?_, by simp [hadm]⟩
    rw [if_pos hadm, hfind]
    simp [hass]

/-- Fixture for C7: a pending expense of user 3 dated November 2025. -/
def c7Expense : Expense :=
  { id := 10
    userId := 3
    date := { year := 2025, month := 11, t := 100 }
    expenseCategory := "general"
    type := "food"
    journeyId := none
    description := "snacks"
    amount := 40
    distanceRate := none
    systemDistance := 0
    manualDistance := 0
    adminDistance := none
    status := .pending
    approvedOption := none
    approvedAmount := none
    approvedBy := none
    adminNotes := ""
    rejectionReason := none
    bulkApproved := false }

/-- Fixture for C7: user 1 holds an unlocked November-2025 record ahead of
    user 2's locked record for the same month. -/
def c7State : State :=
  { users := [⟨1, none, 0⟩, ⟨2, none, 0⟩, ⟨3, none, 0⟩, ⟨9, none, 0⟩]
    journeys := []
    expenses := [c7Expense]
    advances := []
    monthLocks := [⟨1, 2025, 11, false⟩, ⟨2, 2025, 11, true⟩]
    nextId := 50 }

/-- C7 counterexample: a locked MonthLock of one employee (user 2,
    November 2025) does not make every employee's expense of that month
    fail: user 3's November-2025 expense is approved, because the gate
    reads the first (year, month) match, user 1's unlocked record. -/
theorem c7_counterexample :
    (⟨2, 2025, 11, true⟩ : MonthLock) ∈ c7State.monthLocks
    ∧ (⟨2, 2025, 11, true⟩ : MonthLock).isLocked = true
    ∧ c7Expense.date.year = 2025
    ∧ c7Expense.date.month = 11
    ∧ resultOk (approveExpense c7State ⟨9, .superadmin⟩ 10 (some 1) none none).1 = true :=
  ⟨by decide, rfl, rfl, rfl, by decide⟩

/-- C7 (amended): the gate queries MonthLock by (year, month) only and is
    oblivious to the lock owner: rewriting every record userId leaves the
    gate unchanged, and whenever the first record the query finds for the
    expense month is locked, approval fails PeriodLocked with no mutation
    for every expense owner, whoever the lock belongs to. -/
theorem c7_lock_gate_ignores_user :
    (∀ (s : State) (d : JsDate) (f : Nat → Nat),
      monthIsLocked
        { s with monthLocks := s.monthLocks.map (fun l => { l with userId := f l.userId }) } d
        = monthIsLocked s d)
    ∧ (∀ (s : State) (actor : Actor) (id : Nat) (opt : Option Int) (dd : Option ℚ)
        (notes : Option String) (e : Expense) (lock : MonthLock),
      findExpense s id = some e →
      ApproverOk s actor e →
      e.status = .pending →
      findMonthLockYM s e.date.year e.date.month = some lock →
      lock.isLocked = true →
      approveExpense s actor id opt dd notes = (.error .periodLocked, s)) := by
  constructor
  · intro s d f
    unfold monthIsLocked findMonthLockYM
    dsimp only
    induction s.monthLocks with
    | nil => rfl
    | cons l ls ih =>
      simp only [List.map_cons, List.find?_cons]
      by_cases hp : (l.year = d.year && l.month = d.month) = true
      · rw [hp]
      · rw [Bool.not_eq_true] at hp
        rw [hp]
        simpa only [hp] using ih
  · intro s actor id opt dd notes e lock hfind hrbac hpend hlock hlocked
    obtain ⟨hr1, hr2⟩ := approverRbac_ok s actor e hrbac
    have hml : monthIsLocked s e.date = true := by
      unfold monthIsLocked
      rw [hlock]
      exact hlocked
    unfold approveExpense
    rw [if_neg hr2, hfind]
    dsimp only
    rw [hr1]
    dsimp only
    rw [if_neg (by simp [hpend]), if_pos hml]

/-- Fixture for the C7 witness: only user 1 holds a (locked) November-2025
    record; the gated expense belongs to user 3. -/
def c7wState : State :=
  { users := [⟨1, none, 0⟩, ⟨3, none, 0⟩, ⟨9, none, 0⟩]
    journeys := []
    expenses := [c7Expense]
    advances := []
    monthLocks := [⟨1, 2025, 11, true⟩]
    nextId := 50 }

/-- Witness for C7 (amended): user 1's locked November-2025 record blocks
    approval of user 3's expense. -/
theorem c7_lock_gate_ignores_user_witness :
    approveExpense c7wState ⟨9, .superadmin⟩ 10 (some 1) none none
      = (.error .periodLocked, c7wState) :=
  c7_lock_gate_ignores_user.2 c7wState ⟨9, .superadmin⟩ 10 (some 1) none none c7Expense
    ⟨1, 2025, 11, true⟩ (by decide) (Or.inl rfl) rfl (by decide) rfl

/-! ### Claim C6: the locked-month gate -/

/-- Fixture for C6: a pending journey expense dated November 2025, linked
    back from journey 20. -/
def c6Expense : Expense :=
  { id := 10
    userId := 1
    date := { year := 2025, month := 11, t := 500 }
    expenseCategory := "journey"
    type := "journey"
    journeyId := some 20
    description := "site visit"
    amount := 500
    distanceRate := some 8
    systemDistance := 12
    manualDistance := 12
    adminDistance := none
    status := .pending
    approvedOption := none
    approvedAmount := none
    approvedBy := none
    adminNotes := ""
    rejectionReason := none
    bulkApproved := false }

/-- Fixture for C6: November 2025 is locked; journey 20 already points at
    expense 10. -/
def c6State : State :=
  { users := [⟨1, none, 0⟩]
    journeys := [⟨20, 1, some 10, 0⟩]
    expenses := [c6Expense]
    advances := []
    monthLocks := [⟨1, 2025, 11, true⟩]
    nextId := 50 }

/-- Fixture for C6: a December-2025 create request against journey 20. -/
def c6Req : CreateReq :=
  { type := "journey"
    expenseCategory := some "journey"
    date := { year := 2025, month := 12, t := 900 }
    description := "extra leg"
    amount := 50
    journeyId := some 20
    systemDistance := none
    manualDistance := none
    distanceRate := none }

/-- C6 counterexample: with November 2025 locked, createExpense with a
    December date takes the merge path of journey 20 and mutates expense
    10, which is dated inside the locked month, raising its amount from
    500 to 550 and reporting success instead of PeriodLocked. -/
theorem c6_counterexample :
    monthIsLocked c6State c6Expense.date = true
    ∧ c6Expense.amount = 500
    ∧ resultOk (createExpense c6State 1 c6Req).1 = true
    ∧ (findExpense (createExpense c6State 1 c6Req).2 10).map Expense.amount = some 550 := by
  refine ⟨by decide, rfl, ?_, ?_⟩
  · norm_num [createExpense, resultOk, c6State, c6Expense, c6Req, monthIsLocked,
      findMonthLockYM, findJourney, findExpense, expenseSchemaValid, expenseTypeEnum,
      saveExpense, setByKey, List.find?, Option.getD]
    decide
  · norm_num [createExpense, c6State, c6Expense, c6Req, monthIsLocked,
      findMonthLockYM, findJourney, findExpense, expenseSchemaValid, expenseTypeEnum,
      saveExpense, setByKey, List.find?, Option.getD]

/-- C6 (amended): update, delete, approve and reject, and each bulk
    approval item, fail PeriodLocked with no mutation whenever the stored
    expense date lies in a locked month (given an actor passing the
    preceding permission checks and a not-yet-terminal status), whatever
    the actor role; createExpense applies the gate to the requested date
    only, which is why its merge path can still mutate a locked-month
    expense. -/
theorem c6_locked_month_gate :
    (∀ (s : State) (actor : Actor) (id : Nat) (opt : Option Int) (dd : Option ℚ)
        (notes : Option String) (e : Expense),
      findExpense s id = some e → ApproverOk s actor e → e.status = .pending →
      monthIsLocked s e.date = true →
      approveExpense s actor id opt dd notes = (.error .periodLocked, s))
    ∧ (∀ (s : State) (actor : Actor) (id : Nat) (reason : Option String) (e : Expense),
      findExpense s id = some e → ApproverOk s actor e → e.status = .pending →
      monthIsLocked s e.date = true →
      rejectExpense s actor id reason = (.error .periodLocked, s))
    ∧ (∀ (s : State) (actor : Actor) (id : Nat) (r : UpdateReq) (e : Expense),
      findExpense s id = some e → (actor.role = .admin ∨ e.userId = actor.userId) →
      e.status = .pending → monthIsLocked s e.date = true →
      updateExpense s actor id r = (.error .periodLocked, s))
    ∧ (∀ (s : State) (actor : Actor) (id : Nat) (e : Expense),
      findExpense s id = some e → (actor.role = .admin ∨ e.userId = actor.userId) →
      e.status ≠ .approved → monthIsLocked s e.date = true →
      deleteExpense s actor id = (.error .periodLocked, s))
    ∧ (∀ (actor : Actor) (opt : Option Int) (notes : Option String)
        (s : State) (res : BulkResults) (e : Expense),
      monthIsLocked s e.date = true →
      bulkItem actor opt notes (s, res) e
        = (s, { res with
            failed := res.failed ++ [⟨e.id, .periodLocked⟩]
            totalFailed := res.totalFailed + 1 }))
    ∧ (∀ (s : State) (userId : Nat) (r : CreateReq),
      monthIsLocked s r.date = true →
      createExpense s userId r = (.error .periodLocked, s)) := by
  refine ⟨?_, ?_, ?_, ?_, ?_, ?_⟩
  · intro s actor id opt dd notes e hfind hrbac hpend hml
    obtain ⟨hr1, hr2⟩ := approverRbac_ok s actor e hrbac
    unfold approveExpense
    rw [if_neg hr2, hfind]
    dsimp only
    rw [hr1]
    dsimp only
    rw [if_neg (by simp [hpend]), if_pos hml]
  · intro s actor id reason e hfind hrbac hpend hml
    obtain ⟨hr1, hr2⟩ := approverRbac_ok s actor e hrbac
    unfold rejectExpense
    rw [if_neg hr2, hfind]
    dsimp only
    rw [hr1]
    dsimp only
    rw [if_neg (by simp [hpend]), if_pos hml]
  · intro s actor id r e hfind hperm hpend hml
    unfold updateExpense
    rw [hfind]
    dsimp only
    rw [if_neg (by rcases hperm with h | h <;> simp [h]), if_neg (by simp [hpend]),
      if_pos hml]
  · intro s actor id e hfind hperm hstat hml
    unfold deleteExpense
    rw [hfind]
    dsimp only
    rw [if_neg (by rcases hperm with h | h <;> simp [h]), if_neg hstat, if_pos hml]
  · intro actor opt notes s res e hml
    unfold bulkItem
    dsimp only
    rw [if_pos hml]
  · intro s userId r hml
    unfold createExpense
    rw [if_pos hml]

/-- Witness for C6 (amended): approving the locked-month expense of the
    counterexample store fails PeriodLocked with the store unchanged. -/
theorem c6_locked_month_gate_witness :
    approveExpense c6State ⟨9, .superadmin⟩ 10 (some 1) none none
      = (.error .periodLocked, c6State) :=
  c6_locked_month_gate.1 c6State ⟨9, .superadmin⟩ 10 (some 1) none none c6Expense
    (by decide) (Or.inl rfl) rfl (by decide)

/-! ### List lemmas about the store primitives -/

/-- With pairwise distinct keys, find? returns exactly the member carrying
    the key. -/
theorem find?_id_of_nodup {α : Type} (key : α → Nat) (l : List α) (e : α) (i : Nat)
    (hnd : (l.map key).Nodup) (he : e ∈ l) (hkey : key e = i) :
    l.find? (fun x => decide (key x = i)) = some e := by
  induction l with
  | nil => cases he
  | cons a t ih =>
    rw [List.map_cons, List.nodup_cons] at hnd
    rcases List.mem_cons.mp he with rfl | he
    · simp [List.find?_cons, hkey]
    · by_cases hk : key a = i
      · exact absurd (by rw [hk, ← hkey]; exact List.mem_map_of_mem key he) hnd.1
      · simp only [List.find?_cons]
        have h2 : decide (key a = i) = false := by simp [hk]
        rw [h2]
        exact ih hnd.2 he

/-- setByKey never changes the key column. -/
theorem setByKey_map_key {α : Type} (key : α → Nat) (l : List α) (a : α) :
    (setByKey key l a).map key = l.map key := by
  induction l with
  | nil => rfl
  | cons b t ih =>
    unfold setByKey at ih ⊢
    simp only [List.map_cons, ih]
    by_cases hb : key b = key a
    · rw [if_pos hb, hb]
    · rw [if_neg hb]

/-- Lookups under a different key are unchanged by setByKey. -/
theorem find?_setByKey_ne {α : Type} (key : α → Nat) (l : List α) (a : α) (i : Nat)
    (hne : key a ≠ i) :
    (setByKey key l a).find? (fun x => decide (key x = i))
      = l.find? (fun x => decide (key x = i)) := by
  induction l with
  | nil => rfl
  | cons b t ih =>
    unfold setByKey at ih ⊢
    simp only [List.map_cons, List.find?_cons]
    by_cases hb : key b = key a
    · rw [if_pos hb]
      have h1 : decide (key a = i) = false := by simp [hne]
      have h2 : decide (key b = i) = false := by simp [hb ▸ hne]
      rw [h1, h2]
      exact ih
    · rw [if_neg hb]
      by_cases hbi : key b = i
      · simp [hbi]
      · have h2 : decide (key b = i) = false := by simp [hbi]
        rw [h2]
        exact ih

/-- After setByKey, looking the key up finds the written document, as long
    as some document with that key exists. -/
theorem find?_setByKey_self {α : Type} (key : α → Nat) (l : List α) (a : α)
    (h : ∃ b ∈ l, key b = key a) :
    (setByKey key l a).find? (fun x => decide (key x = key a)) = some a := by
  induction l with
  | nil => simp at h
  | cons b t ih =>
    unfold setByKey at ih ⊢
    simp only [List.map_cons, List.find?_cons]
    by_cases hb : key b = key a
    · rw [if_pos hb]
      simp
    · rw [if_neg hb]
      have h2 : decide (key b = key a) = false := by simp [hb]
      rw [h2]
      apply ih
      rcases h with ⟨c, hc, hck⟩
      rcases List.mem_cons.mp hc with rfl | hc
      · exact absurd hck hb
      · exact ⟨c, hc, hck⟩

/-- Whether a keyed lookup succeeds depends only on the key column. -/
theorem find?_isSome_congr {α : Type} (key : α → Nat) (l₁ l₂ : List α) (i : Nat)
    (h : l₁.map key = l₂.map key) :
    (l₁.find? (fun x => decide (key x = i))).isSome
      = (l₂.find? (fun x => decide (key x = i))).isSome := by
  induction l₁ generalizing l₂ with
  | nil =>
    cases l₂ with
    | nil => rfl
    | cons c t => simp at h
  | cons b t ih =>
    cases l₂ with
    | nil => simp at h
    | cons c t₂ =>
      simp only [List.map_cons, List.cons.injEq] at h
      simp only [List.find?_cons, h.1]
      by_cases hc : key c = i
      · simp [hc]
      · have h2 : decide (key c = i) = false := by simp [hc]
        rw [h2]
        exact ih t₂ h.2

/-- The month gate reads only the monthLocks column. -/
theorem monthIsLocked_congr (s₁ s₂ : State) (d : JsDate)
    (h : s₁.monthLocks = s₂.monthLocks) :
    monthIsLocked s₁ d = monthIsLocked s₂ d := by
  unfold monthIsLocked findMonthLockYM
  rw [h]

/-! ### Deterministic per-item view of the bulk loop -/

/-- The outcome of one bulk item, determined by the month locks and the
    document alone: the gate, the amount computation, then the save
    validation; the balance debit itself cannot fail when the owner
    resolves. -/
def itemOutcome (s : State) (actor : Actor) (opt : Option Int) (notes : Option String)
    (e : Expense) : Except ApiErr ℚ :=
  if monthIsLocked s e.date then .error .periodLocked
  else
    match (if e.type = "journey" then calculateApprovedAmount e opt none
           else .ok e.amount) with
    | .error cerr => .error (.calcFailed cerr)
    | .ok amt =>
      if ¬ expenseSchemaValid (bulkApprovedDoc actor opt notes e amt) then
        .error .validationFailed
      else .ok amt

/-- The per-item outcome also reads the state only through monthLocks. -/
theorem itemOutcome_congr (s₁ s₂ : State) (actor : Actor) (opt : Option Int)
    (notes : Option String) (e : Expense) (h : s₁.monthLocks = s₂.monthLocks) :
    itemOutcome s₁ actor opt notes e = itemOutcome s₂ actor opt notes e := by
  unfold itemOutcome
  rw [monthIsLocked_congr s₁ s₂ e.date h]

/-- A document that passes save validation carries a non-negative
    approvedAmount. -/
theorem valid_amount_nonneg (x : Expense) (a : ℚ) (hv : expenseSchemaValid x = true)
    (ha : x.approvedAmount = some a) : 0 ≤ a := by
  by_contra hneg
  rw [expenseSchemaValid, ha] at hv
  simp [hneg] at hv

/-- Members of setByKey are the written document or untouched originals. -/
theorem mem_setByKey {α : Type} (key : α → Nat) (l : List α) (a x : α)
    (h : x ∈ setByKey key l a) : x = a ∨ x ∈ l := by
  unfold setByKey at h
  rcases List.mem_map.mp h with ⟨y, hy, hxy⟩
  by_cases hk : key y = key a
  · rw [if_pos hk] at hxy
    exact Or.inl hxy.symm
  · rw [if_neg hk] at hxy
    exact Or.inr (hxy ▸ hy)

/-- Field values of the bulk-approved document. -/
theorem bulkApprovedDoc_fields (actor : Actor) (opt : Option Int) (notes : Option String)
    (e : Expense) (amt : ℚ) :
    (bulkApprovedDoc actor opt notes e amt).id = e.id
    ∧ (bulkApprovedDoc actor opt notes e amt).userId = e.userId
    ∧ (bulkApprovedDoc actor opt notes e amt).journeyId = e.journeyId
    ∧ (bulkApprovedDoc actor opt notes e amt).approvedAmount = some amt
    ∧ (bulkApprovedDoc actor opt notes e amt).status = .approved :=
  ⟨rfl, rfl, rfl, rfl, rfl⟩

/-- Saving an expense leaves user lookups untouched. -/
theorem findUser_saveExpense (s : State) (e : Expense) (i : Nat) :
    findUser (saveExpense s e) i = findUser s i := rfl

/-- Saving a journey leaves user lookups untouched. -/
theorem findUser_saveJourney (s : State) (j : Journey) (i : Nat) :
    findUser (saveJourney s j) i = findUser s i := rfl

/-- Saving an expense leaves journey lookups untouched. -/
theorem findJourney_saveExpense (s : State) (e : Expense) (i : Nat) :
    findJourney (saveExpense s e) i = findJourney s i := rfl

/-- One bulk iteration, characterized by itemOutcome: a failing outcome
    records the failure and leaves the store unchanged; a succeeding
    outcome saves the approved document, possibly bumps the journey total,
    debits the owner balance, and appends the approved entry. -/
theorem bulkItem_eq (actor : Actor) (opt : Option Int) (notes : Option String)
    (s : State) (res : BulkResults) (e : Expense)
    (huser : (findUser s e.userId).isSome = true)
    (hjour : ∀ j ∈ s.journeys, 0 ≤ j.additionalExpensesTotal) :
    (∀ err, itemOutcome s actor opt notes e = .error err →
      bulkItem actor opt notes (s, res) e
        = (s, { res with
            failed := res.failed ++ [⟨e.id, err⟩]
            totalFailed := res.totalFailed + 1 }))
    ∧ (∀ amt, itemOutcome s actor opt notes e = .ok amt →
      ∃ s' : State,
        bulkItem actor opt notes (s, res) e
          = (s', { res with
              approved := res.approved ++ [⟨e.id, e.userId, amt⟩]
              totalApproved := res.totalApproved + 1
              totalAmount := res.totalAmount + amt })
        ∧ s'.expenses = setByKey Expense.id s.expenses (bulkApprovedDoc actor opt notes e amt)
        ∧ s'.monthLocks = s.monthLocks
        ∧ s'.users.map User.id = s.users.map User.id
        ∧ (∀ j ∈ s'.journeys, 0 ≤ j.additionalExpensesTotal)) := by
  constructor
  · intro err hout
    unfold itemOutcome at hout
    unfold bulkItem
    dsimp only
    by_cases hml : monthIsLocked s e.date = true
    · rw [if_pos hml] at hout
      rw [if_pos hml]
      cases hout
      rfl
    · rw [if_neg hml] at hout
      rw [if_neg hml]
      cases hamt : (if e.type = "journey" then calculateApprovedAmount e opt none
                    else .ok e.amount) with
      | error cerr =>
        rw [hamt] at hout
        dsimp only at hout ⊢
        cases hout
        rfl
      | ok amt0 =>
        rw [hamt] at hout
        dsimp only at hout ⊢
        by_cases hv : expenseSchemaValid (bulkApprovedDoc actor opt notes e amt0) = true
        · rw [if_neg (not_not_intro hv)] at hout
          exact absurd hout (by simp)
        · rw [if_pos hv] at hout
          rw [if_pos hv]
          cases hout
          rfl
  · intro amt hout
    unfold itemOutcome at hout
    unfold bulkItem
    dsimp only
    by_cases hml : monthIsLocked s e.date = true
    · rw [if_pos hml] at hout
      exact absurd hout (by simp)
    · rw [if_neg hml] at hout
      rw [if_neg hml]
      cases hamt : (if e.type = "journey" then calculateApprovedAmount e opt none
                    else .ok e.amount) with
      | error cerr =>
        rw [hamt] at hout
        dsimp only at hout
        exact absurd hout (by simp)
      | ok amt0 =>
        rw [hamt] at hout
        dsimp only at hout ⊢
        by_cases hv : expenseSchemaValid (bulkApprovedDoc actor opt notes e amt0) = true
        · rw [if_neg (not_not_intro hv)] at hout
          cases hout
          rw [if_neg (not_not_intro hv)]
          have hamtnn : (0 : ℚ) ≤ amt :=
            valid_amount_nonneg _ _ hv (bulkApprovedDoc_fields actor opt notes e amt).2.2.2.1
          obtain ⟨user, hu⟩ := Option.isSome_iff_exists.mp huser
          rw [(bulkApprovedDoc_fields actor opt notes e amt).2.2.1]
          cases hj : e.journeyId with
          | none =>
            dsimp only
            rw [findUser_saveExpense, (bulkApprovedDoc_fields actor opt notes e amt).2.1, hu]
            dsimp only
            exact ⟨saveUser (saveExpense s (bulkApprovedDoc actor opt notes e amt))
                { user with advanceBalance := user.advanceBalance - amt },
              rfl, rfl, rfl, setByKey_map_key User.id s.users _, hjour⟩
          | some jid =>
            dsimp only
            rw [findJourney_saveExpense]
            cases hfj : findJourney s jid with
            | none =>
              dsimp only
              rw [findUser_saveExpense, (bulkApprovedDoc_fields actor opt notes e amt).2.1, hu]
              dsimp only
              exact ⟨saveUser (saveExpense s (bulkApprovedDoc actor opt notes e amt))
                  { user with advanceBalance := user.advanceBalance - amt },
                rfl, rfl, rfl, setByKey_map_key User.id s.users _, hjour⟩
            | some j =>
              have hjmem : j ∈ s.journeys := List.mem_of_find?_eq_some hfj
              have hnn : ¬ (j.additionalExpensesTotal + amt < 0) :=
                not_lt.mpr (by have := hjour j hjmem; linarith)
              dsimp only
              rw [if_neg hnn]
              dsimp only
              rw [findUser_saveJourney, findUser_saveExpense,
                (bulkApprovedDoc_fields actor opt notes e amt).2.1, hu]
              dsimp only
              refine ⟨saveUser
                  (saveJourney (saveExpense s (bulkApprovedDoc actor opt notes e amt))
                    { j with additionalExpensesTotal := j.additionalExpensesTotal + amt })
                  { user with advanceBalance := user.advanceBalance - amt },
                rfl, rfl, rfl, setByKey_map_key User.id s.users _, ?_⟩
              intro x hx
              rcases mem_setByKey Journey.id s.journeys _ x hx with rfl | hx2
              · show 0 ≤ j.additionalExpensesTotal + amt
                have := hjour j hjmem
                linarith
              · exact hjour x hx2
        · rw [if_pos hv] at hout
          exact absurd hout (by simp)

/-- The approved entry an item contributes when its outcome succeeds. -/
def okEntry (s : State) (actor : Actor) (opt : Option Int) (notes : Option String)
    (e : Expense) : Option BulkApprovedEntry :=
  match itemOutcome s actor opt notes e with
  | .ok amt => some ⟨e.id, e.userId, amt⟩
  | .error _ => none

/-- The failed entry an item contributes when its outcome fails. -/
def failEntry (s : State) (actor : Actor) (opt : Option Int) (notes : Option String)
    (e : Expense) : Option BulkFailedEntry :=
  match itemOutcome s actor opt notes e with
  | .ok _ => none
  | .error err => some ⟨e.id, err⟩

/-- okEntry depends on the state only through its month locks. -/
theorem okEntry_congr (s₁ s₂ : State) (actor : Actor) (opt : Option Int)
    (notes : Option String) (e : Expense) (h : s₁.monthLocks = s₂.monthLocks) :
    okEntry s₁ actor opt notes e = okEntry s₂ actor opt notes e := by
  unfold okEntry
  rw [itemOutcome_congr s₁ s₂ actor opt notes e h]

/-- failEntry depends on the state only through its month locks. -/
theorem failEntry_congr (s₁ s₂ : State) (actor : Actor) (opt : Option Int)
    (notes : Option String) (e : Expense) (h : s₁.monthLocks = s₂.monthLocks) :
    failEntry s₁ actor opt notes e = failEntry s₂ actor opt notes e := by
  unfold failEntry
  rw [itemOutcome_congr s₁ s₂ actor opt notes e h]

/-- Full characterization of the bulk-approval loop over a batch of
    pending documents with pairwise distinct ids: the approved and failed
    arrays extend, in batch order, by exactly the per-item outcomes; the
    counters match; documents outside the batch are untouched; every
    successful item ends stored as its bulk-approved document; the month
    locks never change. -/
theorem bulkLoop_spec (actor : Actor) (opt : Option Int) (notes : Option String)
    (es : List Expense) (s : State) (res : BulkResults)
    (hnd : (es.map Expense.id).Nodup)
    (hmem : ∀ e ∈ es, findExpense s e.id = some e ∧ e.status = .pending)
    (huser : ∀ e ∈ es, (findUser s e.userId).isSome = true)
    (hjour : ∀ j ∈ s.journeys, 0 ≤ j.additionalExpensesTotal) :
    (es.foldl (bulkItem actor opt notes) (s, res)).2.approved
        = res.approved ++ es.filterMap (okEntry s actor opt notes)
    ∧ (es.foldl (bulkItem actor opt notes) (s, res)).2.failed
        = res.failed ++ es.filterMap (failEntry s actor opt notes)
    ∧ (es.foldl (bulkItem actor opt notes) (s, res)).2.totalApproved
        = res.totalApproved + (es.filterMap (okEntry s actor opt notes)).length
    ∧ (es.foldl (bulkItem actor opt notes) (s, res)).2.totalFailed
        = res.totalFailed + (es.filterMap (failEntry s actor opt notes)).length
    ∧ (∀ i : Nat, i ∉ es.map Expense.id →
        findExpense (es.foldl (bulkItem actor opt notes) (s, res)).1 i = findExpense s i)
    ∧ (∀ e ∈ es, ∀ amt, itemOutcome s actor opt notes e = .ok amt →
        findExpense (es.foldl (bulkItem actor opt notes) (s, res)).1 e.id
          = some (bulkApprovedDoc actor opt notes e amt))
    ∧ (es.foldl (bulkItem actor opt notes) (s, res)).1.monthLocks = s.monthLocks := by
  induction es generalizing s res with
  | nil =>
    exact ⟨by simp, by simp, by simp, by simp, fun i _ => rfl,
      fun e he => absurd he (by simp), rfl⟩
  | cons e t ih =>
    rw [List.map_cons, List.nodup_cons] at hnd
    have hmem0 := hmem e (List.mem_cons_self e t)
    have hememb : e ∈ s.expenses := List.mem_of_find?_eq_some hmem0.1
    have hstep := bulkItem_eq actor opt notes s res e
      (huser e (List.mem_cons_self e t)) hjour
    simp only [List.foldl_cons]
    cases houtc : itemOutcome s actor opt notes e with
    | error err =>
      have heq := hstep.1 err houtc
      rw [heq]
      have ih' := ih s { res with
          failed := res.failed ++ [⟨e.id, err⟩]
          totalFailed := res.totalFailed + 1 }
        hnd.2 (fun x hx => hmem x (List.mem_cons_of_mem e hx))
        (fun x hx => huser x (List.mem_cons_of_mem e hx)) hjour
      have hoknone : okEntry s actor opt notes e = none := by
        unfold okEntry
        rw [houtc]
      have hfsome : failEntry s actor opt notes e = some ⟨e.id, err⟩ := by
        unfold failEntry
        rw [houtc]
      refine ⟨?_, ?_, ?_, ?_, ?_, ?_, ih'.2.2.2.2.2.2⟩
      · rw [ih'.1, List.filterMap_cons_none hoknone]
      · rw [ih'.2.1, List.filterMap_cons_some hfsome]
        simp [List.append_assoc]
      · rw [ih'.2.2.1, List.filterMap_cons_none hoknone]
      · rw [ih'.2.2.2.1, List.filterMap_cons_some hfsome]
        simp [Nat.add_assoc, Nat.add_comm 1]
      · intro i hi
        exact ih'.2.2.2.2.1 i (fun hit => hi (List.mem_cons_of_mem _ hit))
      · intro x hx amt hout
        rcases List.mem_cons.mp hx with rfl | hx2
        · rw [houtc] at hout
          cases hout
        · exact ih'.2.2.2.2.2.1 x hx2 amt hout
    | ok amt =>
      obtain ⟨s', heq, hexp, hlocks, husers, hjour'⟩ := hstep.2 amt houtc
      rw [heq]
      have hmem' : ∀ x ∈ t, findExpense s' x.id = some x ∧ x.status = .pending := by
        intro x hx
        have hne : (bulkApprovedDoc actor opt notes e amt).id ≠ x.id := by
          rw [(bulkApprovedDoc_fields actor opt notes e amt).1]
          intro hcontra
          exact hnd.1 (hcontra ▸ List.mem_map_of_mem Expense.id hx)
        have : findExpense s' x.id = findExpense s x.id := by
          unfold findExpense
          rw [hexp]
          exact find?_setByKey_ne Expense.id s.expenses _ x.id hne
        rw [this]
        exact hmem x (List.mem_cons_of_mem e hx)
      have huser' : ∀ x ∈ t, (findUser s' x.userId).isSome = true := by
        intro x hx
        have : (findUser s' x.userId).isSome = (findUser s x.userId).isSome := by
          unfold findUser
          exact find?_isSome_congr User.id s'.users s.users x.userId husers
        rw [this]
        exact huser x (List.mem_cons_of_mem e hx)
      have ih' := ih s' { res with
          approved := res.approved ++ [⟨e.id, e.userId, amt⟩]
          totalApproved := res.totalApproved + 1
          totalAmount := res.totalAmount + amt }
        hnd.2 hmem' huser' hjour'
      have hokcong : ∀ x ∈ t, okEntry s' actor opt notes x = okEntry s actor opt notes x :=
        fun x _ => okEntry_congr s' s actor opt notes x hlocks
      have hfcong : ∀ x ∈ t, failEntry s' actor opt notes x = failEntry s actor opt notes x :=
        fun x _ => failEntry_congr s' s actor opt notes x hlocks
      have hoksome : okEntry s actor opt notes e = some ⟨e.id, e.userId, amt⟩ := by
        unfold okEntry
        rw [houtc]
      have hfnone : failEntry s actor opt notes e = none := by
        unfold failEntry
        rw [houtc]
      refine ⟨?_, ?_, ?_, ?_, ?_, ?_, ?_⟩
      · rw [ih'.1, List.filterMap_cons_some hoksome,
          List.filterMap_congr hokcong]
        simp [List.append_assoc]
      · rw [ih'.2.1, List.filterMap_cons_none hfnone, List.filterMap_congr hfcong]
      · rw [ih'.2.2.1, List.filterMap_cons_some hoksome,
          List.filterMap_congr hokcong]
        simp [Nat.add_assoc, Nat.add_comm 1]
      · rw [ih'.2.2.2.1, List.filterMap_cons_none hfnone, List.filterMap_congr hfcong]
      · intro i hi
        have h1 := ih'.2.2.2.2.1 i (fun hit => hi (List.mem_cons_of_mem _ hit))
        rw [h1]
        have hne : (bulkApprovedDoc actor opt notes e amt).id ≠ i := by
          rw [(bulkApprovedDoc_fields actor opt notes e amt).1]
          intro hcontra
          exact hi (hcontra ▸ List.mem_cons_self _ _)
        unfold findExpense
        rw [hexp]
        exact find?_setByKey_ne Expense.id s.expenses _ i hne
      · intro x hx amt2 hout
        rcases List.mem_cons.mp hx with rfl | hx2
        · rw [houtc] at hout
          cases hout
          have h1 := ih'.2.2.2.2.1 x.id (fun hit => hnd.1 hit)
          rw [h1]
          unfold findExpense
          rw [hexp]
          have hxid : x.id = (bulkApprovedDoc actor opt notes x amt).id :=
            ((bulkApprovedDoc_fields actor opt notes x amt).1).symm
          rw [hxid]
          exact find?_setByKey_self Expense.id s.expenses _
            ⟨x, hememb, ((bulkApprovedDoc_fields actor opt notes x amt).1).symm ▸ rfl⟩
        · have h2 := ih'.2.2.2.2.2.1 x hx2 amt2
            (by rw [itemOutcome_congr s' s actor opt notes x hlocks]; exact hout)
          exact h2
      · rw [ih'.2.2.2.2.2.2, hlocks]

/-- The RBAC filter only removes items. -/
theorem bulkAccessible_sublist (s : State) (actor : Actor) (l : List Expense) :
    List.Sublist (bulkAccessible s actor l) l := by
  unfold bulkAccessible
  split
  · exact List.filter_sublist l
  · exact List.Sublist.refl l

/-- The variance filter only removes items. -/
theorem bulkVarianceFiltered_sublist (l : List Expense) (mv : Option ℚ) :
    List.Sublist (bulkVarianceFiltered l mv) l := by
  unfold bulkVarianceFiltered
  split
  · exact List.Sublist.refl l
  · split
    · exact List.filter_sublist l
    · exact List.Sublist.refl l

/-- Ids of the filterMap of okEntry stay in batch order. -/
theorem okEntry_ids_sublist (s : State) (actor : Actor) (opt : Option Int)
    (notes : Option String) (es : List Expense) :
    List.Sublist ((es.filterMap (okEntry s actor opt notes)).map BulkApprovedEntry.expenseId)
      (es.map Expense.id) := by
  induction es with
  | nil => exact List.Sublist.refl []
  | cons e t ih =>
    rw [List.filterMap_cons, List.map_cons]
    cases h : okEntry s actor opt notes e with
    | none => exact ih.cons e.id
    | some entry =>
      have hid : entry.expenseId = e.id := by
        unfold okEntry at h
        cases houtc : itemOutcome s actor opt notes e with
        | ok amt => rw [houtc] at h; cases h; rfl
        | error err => rw [houtc] at h; cases h
      rw [List.map_cons, hid]
      exact ih.cons₂ e.id

/-- Ids of the filterMap of failEntry stay in batch order. -/
theorem failEntry_ids_sublist (s : State) (actor : Actor) (opt : Option Int)
    (notes : Option String) (es : List Expense) :
    List.Sublist ((es.filterMap (failEntry s actor opt notes)).map BulkFailedEntry.expenseId)
      (es.map Expense.id) := by
  induction es with
  | nil => exact List.Sublist.refl []
  | cons e t ih =>
    rw [List.filterMap_cons, List.map_cons]
    cases h : failEntry s actor opt notes e with
    | none => exact ih.cons e.id
    | some entry =>
      have hid : entry.expenseId = e.id := by
        unfold failEntry at h
        cases houtc : itemOutcome s actor opt notes e with
        | ok amt => rw [houtc] at h; cases h
        | error err => rw [houtc] at h; cases h; rfl
      rw [List.map_cons, hid]
      exact ih.cons₂ e.id

/-- Each item lands in exactly one of the two outcome lists. -/
theorem okEntry_failEntry_partition (s : State) (actor : Actor) (opt : Option Int)
    (notes : Option String) (es : List Expense) :
    (es.filterMap (okEntry s actor opt notes)).length
      + (es.filterMap (failEntry s actor opt notes)).length = es.length := by
  induction es with
  | nil => rfl
  | cons e t ih =>
    rw [List.filterMap_cons, List.filterMap_cons, List.length_cons]
    cases houtc : itemOutcome s actor opt notes e with
    | ok amt =>
      have h1 : okEntry s actor opt notes e = some ⟨e.id, e.userId, amt⟩ := by
        unfold okEntry
        rw [houtc]
      have h2 : failEntry s actor opt notes e = none := by
        unfold failEntry
        rw [houtc]
      rw [h1, h2]
      simp only [List.length_cons]
      omega
    | error err =>
      have h1 : okEntry s actor opt notes e = none := by
        unfold okEntry
        rw [houtc]
      have h2 : failEntry s actor opt notes e = some ⟨e.id, err⟩ := by
        unfold failEntry
        rw [houtc]
      rw [h1, h2]
      simp only [List.length_cons]
      omega

/-- Store sanity assumed by the bulk theorems: pairwise distinct expense
    ids, resolvable expense owners, and non-negative journey totals. -/
def StoreOk (s : State) : Prop :=
  (s.expenses.map Expense.id).Nodup
  ∧ (∀ e ∈ s.expenses, (findUser s e.userId).isSome = true)
  ∧ (∀ j ∈ s.journeys, 0 ≤ j.additionalExpensesTotal)

/-- When every early return is passed, bulkApproveExpenses is exactly the
    fold of the per-item loop over the filtered batch. -/
theorem bulkApproveExpenses_run (s : State) (actor : Actor) (ids : List Nat)
    (opt : Option Int) (notes : Option String) (mv : Option ℚ)
    (hc1 : ¬(actor.role ≠ .admin ∧ actor.role ≠ .superadmin))
    (hc2 : ¬(ids = []))
    (hc3 : ¬(bulkPending s ids = []))
    (hc4 : ¬(actor.role = .admin ∧ bulkAccessible s actor (bulkPending s ids) = [])) :
    bulkApproveExpenses s actor ids opt notes mv
      = (.ok ⟨((bulkVarianceFiltered (bulkAccessible s actor (bulkPending s ids)) mv).foldl
            (bulkItem actor opt notes) (s, emptyBulkResults)).2,
          (bulkPending s ids).length
            - (bulkVarianceFiltered (bulkAccessible s actor (bulkPending s ids)) mv).length⟩,
        ((bulkVarianceFiltered (bulkAccessible s actor (bulkPending s ids)) mv).foldl
            (bulkItem actor opt notes) (s, emptyBulkResults)).1) := by
  unfold bulkApproveExpenses
  rw [if_neg hc1, if_neg hc2]
  try dsimp only
  rw [if_neg hc3]
  try dsimp only
  rw [if_neg hc4]

/-- A successful bulk response implies every early return was passed. -/
theorem bulkApproveExpenses_ok_guards (s : State) (actor : Actor) (ids : List Nat)
    (opt : Option Int) (notes : Option String) (mv : Option ℚ) (data : BulkData)
    (hok : (bulkApproveExpenses s actor ids opt notes mv).1 = .ok data) :
    ¬(actor.role ≠ .admin ∧ actor.role ≠ .superadmin)
    ∧ ¬(ids = [])
    ∧ ¬(bulkPending s ids = [])
    ∧ ¬(actor.role = .admin ∧ bulkAccessible s actor (bulkPending s ids) = []) := by
  by_cases hc1 : actor.role ≠ .admin ∧ actor.role ≠ .superadmin
  · rw [show bulkApproveExpenses s actor ids opt notes mv = (.error .forbiddenRole, s) by
      unfold bulkApproveExpenses; rw [if_pos hc1]] at hok
    simp at hok
  by_cases hc2 : ids = []
  · rw [show bulkApproveExpenses s actor ids opt notes mv = (.error .emptyIds, s) by
      unfold bulkApproveExpenses; rw [if_neg hc1, if_pos hc2]] at hok
    simp at hok
  by_cases hc3 : bulkPending s ids = []
  · rw [show bulkApproveExpenses s actor ids opt notes mv = (.error .noPendingFound, s) by
      unfold bulkApproveExpenses
      rw [if_neg hc1, if_neg hc2]
      try dsimp only
      rw [if_pos hc3]] at hok
    simp at hok
  by_cases hc4 : actor.role = .admin ∧ bulkAccessible s actor (bulkPending s ids) = []
  · rw [show bulkApproveExpenses s actor ids opt notes mv = (.error .accessDenied, s) by
      unfold bulkApproveExpenses
      rw [if_neg hc1, if_neg hc2]
      try dsimp only
      rw [if_neg hc3]
      try dsimp only
      rw [if_pos hc4]] at hok
    simp at hok
  exact ⟨hc1, hc2, hc3, hc4⟩

/-- The filtered batch drawn from a sane store meets the loop
    prerequisites. -/
theorem filtered_batch_ok (s : State) (actor : Actor) (ids : List Nat) (mv : Option ℚ)
    (hstore : StoreOk s) :
    ((bulkVarianceFiltered (bulkAccessible s actor (bulkPending s ids)) mv).map
        Expense.id).Nodup
    ∧ (∀ e ∈ bulkVarianceFiltered (bulkAccessible s actor (bulkPending s ids)) mv,
        findExpense s e.id = some e ∧ e.status = .pending)
    ∧ (∀ e ∈ bulkVarianceFiltered (bulkAccessible s actor (bulkPending s ids)) mv,
        (findUser s e.userId).isSome = true) := by
  have hsubp : List.Sublist (bulkVarianceFiltered (bulkAccessible s actor (bulkPending s ids)) mv)
      (bulkPending s ids) :=
    (bulkVarianceFiltered_sublist _ mv).trans (bulkAccessible_sublist s actor _)
  have hsub : List.Sublist (bulkVarianceFiltered (bulkAccessible s actor (bulkPending s ids)) mv)
      s.expenses := by
    refine hsubp.trans ?_
    unfold bulkPending
    exact List.filter_sublist s.expenses
  refine ⟨?_, ?_, ?_⟩
  · exact List.Nodup.sublist (hsub.map Expense.id) hstore.1
  · intro e he
    refine ⟨find?_id_of_nodup Expense.id s.expenses e e.id hstore.1 (hsub.subset he) rfl, ?_⟩
    have hmemp : e ∈ bulkPending s ids := hsubp.subset he
    unfold bulkPending at hmemp
    have hp := (List.mem_filter.mp hmemp).2
    simp only [Bool.and_eq_true, decide_eq_true_eq] at hp
    exact hp.2
  · intro e he
    exact hstore.2.1 e (hsub.subset he)

/-- C4 (amended): within one bulkApproveExpenses call, items are
    processed one at a time in the order the datastore returns them, the
    stored collection order: the id sequences of both result arrays are
    subsequences of the expense collection id sequence, and need not
    follow the caller-supplied expenseIds array order. -/
theorem c4_processing_order (s : State) (actor : Actor) (ids : List Nat)
    (opt : Option Int) (notes : Option String) (mv : Option ℚ) (data : BulkData)
    (hstore : StoreOk s)
    (hok : (bulkApproveExpenses s actor ids opt notes mv).1 = .ok data) :
    List.Sublist (data.results.approved.map BulkApprovedEntry.expenseId)
      (s.expenses.map Expense.id)
    ∧ List.Sublist (data.results.failed.map BulkFailedEntry.expenseId)
      (s.expenses.map Expense.id) := by
  obtain ⟨hc1, hc2, hc3, hc4⟩ := bulkApproveExpenses_ok_guards s actor ids opt notes mv data hok
  have hrun := bulkApproveExpenses_run s actor ids opt notes mv hc1 hc2 hc3 hc4
  rw [hrun] at hok
  have hdata := (Except.ok.inj hok).symm
  obtain ⟨hnd, hmem, huser⟩ := filtered_batch_ok s actor ids mv hstore
  have hspec := bulkLoop_spec actor opt notes
    (bulkVarianceFiltered (bulkAccessible s actor (bulkPending s ids)) mv)
    s emptyBulkResults hnd hmem huser hstore.2.2
  have hsubid : List.Sublist
      ((bulkVarianceFiltered (bulkAccessible s actor (bulkPending s ids)) mv).map Expense.id)
      (s.expenses.map Expense.id) := by
    refine List.Sublist.map Expense.id ?_
    refine ((bulkVarianceFiltered_sublist _ mv).trans (bulkAccessible_sublist s actor _)).trans ?_
    unfold bulkPending
    exact List.filter_sublist s.expenses
  rw [hdata]
  dsimp only
  constructor
  · rw [hspec.1]
    simp only [emptyBulkResults, List.nil_append]
    exact (okEntry_ids_sublist s actor opt notes _).trans hsubid
  · rw [hspec.2.1]
    simp only [emptyBulkResults, List.nil_append]
    exact (failEntry_ids_sublist s actor opt notes _).trans hsubid

/-- C5: in bulkApproveExpenses, each item of the filtered batch lands in
    exactly one of the approved and failed arrays (so one item's failure
    never aborts the rest), every failed entry records the item's failure
    reason, the counters match the arrays, and every item reported
    approved is stored approved in the final state: earlier successes are
    never rolled back. -/
theorem c5_partial_failure (s : State) (actor : Actor) (ids : List Nat)
    (opt : Option Int) (notes : Option String) (mv : Option ℚ) (data : BulkData)
    (hstore : StoreOk s)
    (hok : (bulkApproveExpenses s actor ids opt notes mv).1 = .ok data) :
    data.results.totalApproved = data.results.approved.length
    ∧ data.results.totalFailed = data.results.failed.length
    ∧ data.results.approved.length + data.results.failed.length
        = (bulkVarianceFiltered (bulkAccessible s actor (bulkPending s ids)) mv).length
    ∧ (∀ f ∈ data.results.failed,
        ∃ e ∈ bulkVarianceFiltered (bulkAccessible s actor (bulkPending s ids)) mv,
          f.expenseId = e.id ∧ itemOutcome s actor opt notes e = .error f.reason)
    ∧ (∀ a ∈ data.results.approved,
        (findExpense (bulkApproveExpenses s actor ids opt notes mv).2 a.expenseId).map
          Expense.status = some ExpStatus.approved) := by
  obtain ⟨hc1, hc2, hc3, hc4⟩ := bulkApproveExpenses_ok_guards s actor ids opt notes mv data hok
  have hrun := bulkApproveExpenses_run s actor ids opt notes mv hc1 hc2 hc3 hc4
  rw [hrun] at hok
  have hdata := (Except.ok.inj hok).symm
  obtain ⟨hnd, hmem, huser⟩ := filtered_batch_ok s actor ids mv hstore
  have hspec := bulkLoop_spec actor opt notes
    (bulkVarianceFiltered (bulkAccessible s actor (bulkPending s ids)) mv)
    s emptyBulkResults hnd hmem huser hstore.2.2
  rw [hdata]
  dsimp only
  refine ⟨?_, ?_, ?_, ?_, ?_⟩
  · rw [hspec.1, hspec.2.2.1]
    simp [emptyBulkResults]
  · rw [hspec.2.1, hspec.2.2.2.1]
    simp [emptyBulkResults]
  · rw [hspec.1, hspec.2.1]
    simp only [emptyBulkResults, List.nil_append]
    exact okEntry_failEntry_partition s actor opt notes _
  · intro f hf
    rw [hspec.2.1] at hf
    simp only [emptyBulkResults, List.nil_append] at hf
    obtain ⟨e, he, hfe⟩ := List.mem_filterMap.mp hf
    refine ⟨e, he, ?_⟩
    unfold failEntry at hfe
    cases houtc : itemOutcome s actor opt notes e with
    | ok amt => rw [houtc] at hfe; cases hfe
    | error err =>
      rw [houtc] at hfe
      cases hfe
      exact ⟨rfl, rfl⟩
  · intro a ha
    rw [hspec.1] at ha
    simp only [emptyBulkResults, List.nil_append] at ha
    obtain ⟨e, he, hae⟩ := List.mem_filterMap.mp ha
    unfold okEntry at hae
    cases houtc : itemOutcome s actor opt notes e with
    | error err => rw [houtc] at hae; cases hae
    | ok amt =>
      rw [houtc] at hae
      cases hae
      have hfinal := hspec.2.2.2.2.2.1 e he amt houtc
      rw [hrun]
      dsimp only
      rw [hfinal]
      rfl

/-! ### Claims C4 and C5: fixtures, counterexample, witnesses -/

/-- Fixture for C4/C5: a pending non-journey expense, id 1, amount 40,
    dated June 2025, stored first. -/
def c4ExpenseA : Expense :=
  { id := 1
    userId := 1
    date := { year := 2025, month := 6, t := 10 }
    expenseCategory := "general"
    type := "food"
    journeyId := none
    description := "supplies"
    amount := 40
    distanceRate := none
    systemDistance := 0
    manualDistance := 0
    adminDistance := none
    status := .pending
    approvedOption := none
    approvedAmount := none
    approvedBy := none
    adminNotes := ""
    rejectionReason := none
    bulkApproved := false }

/-- Fixture for C4/C5: a second pending non-journey expense, id 2,
    amount 60, dated July 2025, stored after c4ExpenseA. -/
def c4ExpenseB : Expense :=
  { c4ExpenseA with
    id := 2
    date := { year := 2025, month := 7, t := 20 }
    description := "fuel"
    amount := 60 }

/-- Fixture for C4: both expenses pending in collection order [1, 2], no
    month locks. -/
def c4State : State :=
  { users := [⟨1, none, 0⟩]
    journeys := []
    expenses := [c4ExpenseA, c4ExpenseB]
    advances := []
    monthLocks := []
    nextId := 50 }

/-- C4 counterexample: calling bulkApproveExpenses with the ids in the
    order [2, 1] still approves in collection order: the approved array
    lists expense 1 first, then expense 2, not the caller order. -/
theorem c4_counterexample :
    ((bulkApproveExpenses c4State ⟨9, .superadmin⟩ [2, 1] none none none).1.map
        (fun d => d.results.approved.map BulkApprovedEntry.expenseId)) = .ok [1, 2]
    ∧ ([1, 2] : List Nat) ≠ [2, 1] :=
  ⟨by decide, by decide⟩

/-- The bulk response on c4State with ids [2, 1]: both rows approved in
    collection order. -/
def c4Data : BulkData :=
  ⟨⟨[⟨1, 1, 40⟩, ⟨2, 1, 60⟩], [], 2, 0, 100⟩, 0⟩

/-- Witness for c4_processing_order on the concrete store c4State with
    caller order [2, 1]. -/
theorem c4_processing_order_witness :
    StoreOk c4State
    ∧ (bulkApproveExpenses c4State ⟨9, .superadmin⟩ [2, 1] none none none).1 = .ok c4Data
    ∧ List.Sublist (c4Data.results.approved.map BulkApprovedEntry.expenseId)
        (c4State.expenses.map Expense.id) := by
  have hstore : StoreOk c4State := by
    unfold StoreOk
    decide
  have hok : (bulkApproveExpenses c4State ⟨9, .superadmin⟩ [2, 1] none none none).1
      = .ok c4Data := by
    norm_num +decide [bulkApproveExpenses, bulkPending, bulkAccessible, bulkVarianceFiltered,
      assignedUserIds, bulkItem, bulkApprovedDoc, emptyBulkResults, monthIsLocked,
      findMonthLockYM, expenseSchemaValid, expenseTypeEnum, saveExpense, saveUser,
      saveJourney, setByKey, findUser, findJourney, findExpense, List.find?,
      List.filter, c4State, c4ExpenseA, c4ExpenseB, c4Data, Option.getD]
  exact ⟨hstore, hok,
    (c4_processing_order c4State ⟨9, .superadmin⟩ [2, 1] none none none c4Data
      hstore hok).1⟩

/-- Fixture for C5: same two expenses, with June 2025 locked, so the first
    item fails PeriodLocked and the second is approved. -/
def c5State : State :=
  { users := [⟨1, none, 0⟩]
    journeys := []
    expenses := [c4ExpenseA, c4ExpenseB]
    advances := []
    monthLocks := [⟨1, 2025, 6, true⟩]
    nextId := 50 }

/-- The bulk response on c5State: expense 1 fails on the locked month with
    its reason recorded, expense 2 is still approved. -/
def c5Data : BulkData :=
  ⟨⟨[⟨2, 1, 60⟩], [⟨1, .periodLocked⟩], 1, 1, 60⟩, 0⟩

/-- Witness for c5_partial_failure on the concrete store c5State: the
    locked-month failure of expense 1 is recorded and does not stop
    expense 2 from being approved and stored approved. -/
theorem c5_partial_failure_witness :
    StoreOk c5State
    ∧ (bulkApproveExpenses c5State ⟨9, .superadmin⟩ [1, 2] none none none).1 = .ok c5Data
    ∧ c5Data.results.totalApproved = c5Data.results.approved.length
    ∧ c5Data.results.totalFailed = c5Data.results.failed.length
    ∧ (∀ a ∈ c5Data.results.approved,
        (findExpense (bulkApproveExpenses c5State ⟨9, .superadmin⟩ [1, 2] none none none).2
            a.expenseId).map Expense.status = some ExpStatus.approved) := by
  have hstore : StoreOk c5State := by
    unfold StoreOk
    decide
  have hok : (bulkApproveExpenses c5State ⟨9, .superadmin⟩ [1, 2] none none none).1
      = .ok c5Data := by
    norm_num +decide [bulkApproveExpenses, bulkPending, bulkAccessible, bulkVarianceFiltered,
      assignedUserIds, bulkItem, bulkApprovedDoc, emptyBulkResults, monthIsLocked,
      findMonthLockYM, expenseSchemaValid, expenseTypeEnum, saveExpense, saveUser,
      saveJourney, setByKey, findUser, findJourney, findExpense, List.find?,
      List.filter, c5State, c4ExpenseA, c4ExpenseB, c5Data, Option.getD]
  have h := c5_partial_failure c5State ⟨9, .superadmin⟩ [1, 2] none none none c5Data
    hstore hok
  exact ⟨hstore, hok, h.1, h.2.1, h.2.2.2.2⟩

/-! ### Claim C3: advance-history replay and the stored balance -/

/-- The completed, non-deleted advances of a user, in ascending date
    order, as fetched by getAdvanceHistory. -/
def userCompletedAdvances (s : State) (userId : Nat) : List Advance :=
  (s.advances.filter (fun a => a.userId = userId && a.status = .completed
    && a.isDeleted = false)).mergeSort (fun a b => a.date.t ≤ b.date.t)

/-- The approved expenses of a user, in ascending date order, as fetched
    by getAdvanceHistory. -/
def userApprovedExpenses (s : State) (userId : Nat) : List Expense :=
  (s.expenses.filter (fun e => e.userId = userId && e.status = .approved)).mergeSort
    (fun a b => a.date.t ≤ b.date.t)

/-- One transaction row of getAdvanceHistory: advances keep their amount,
    expenses enter with the negated approvedAmount. -/
structure Txn where
  date : JsDate
  amount : ℚ

/-- The combined transaction list of getAdvanceHistory: advance rows and
    negated expense rows, merged and sorted by date (stably, as
    Array.prototype.sort). -/
def allTransactions (s : State) (userId : Nat) : List Txn :=
  ((userCompletedAdvances s userId).map (fun a => (⟨a.date, a.amount⟩ : Txn))
    ++ (userApprovedExpenses s userId).map
        (fun e => (⟨e.date, -(e.approvedAmount.getD 0)⟩ : Txn))).mergeSort
    (fun a b => a.date.t ≤ b.date.t)

/-- The final value of the runningBalance accumulator of
    getAdvanceHistory: it starts at 0 and adds every transaction amount in
    chronological order. -/
def finalRunningBalance (s : State) (userId : Nat) : ℚ :=
  (allTransactions s userId).foldl (fun rb t => rb + t.amount) 0

/-- calculateBalance: total completed advances minus total approved
    expense amounts. -/
def calculateBalance (s : State) (userId : Nat) : ℚ :=
  ((s.advances.filter (fun a => a.userId = userId && a.status = .completed
      && a.isDeleted = false)).map Advance.amount).sum
  - ((s.expenses.filter (fun e => e.userId = userId && e.status = .approved)).map
      (fun e => e.approvedAmount.getD 0)).sum

/-- The running-balance fold is the start value plus the amount sum. -/
theorem foldl_add_eq_sum (l : List Txn) (c : ℚ) :
    l.foldl (fun rb t => rb + t.amount) c = c + (l.map Txn.amount).sum := by
  induction l generalizing c with
  | nil => simp
  | cons t ts ih => simp [List.foldl_cons, ih, add_assoc]

/-- Summing negated values negates the sum. -/
theorem sum_map_neg {α : Type} (f : α → ℚ) (l : List α) :
    (l.map (fun x => -f x)).sum = -(l.map f).sum := by
  induction l with
  | nil => simp
  | cons x xs ih =>
    simp only [List.map_cons, List.sum_cons, ih]
    ring

/-- The chronological replay of getAdvanceHistory ends exactly at
    calculateBalance: sorting permutes the transactions and the sum is
    order-free. -/
theorem replay_eq_calculateBalance (s : State) (userId : Nat) :
    finalRunningBalance s userId = calculateBalance s userId := by
  unfold finalRunningBalance allTransactions userCompletedAdvances userApprovedExpenses
    calculateBalance
  rw [foldl_add_eq_sum, zero_add]
  rw [((List.mergeSort_perm _ _).map Txn.amount).sum_eq]
  rw [List.map_append, List.sum_append, List.map_map, List.map_map]
  rw [((List.mergeSort_perm _ _).map _).sum_eq, ((List.mergeSort_perm _ _).map _).sum_eq]
  have hA : (Txn.amount ∘ fun a : Advance => (⟨a.date, a.amount⟩ : Txn)) = Advance.amount := rfl
  have hE : (Txn.amount ∘ fun e : Expense => (⟨e.date, -(e.approvedAmount.getD 0)⟩ : Txn))
      = fun e : Expense => -(e.approvedAmount.getD 0) := rfl
  rw [hA, hE, sum_map_neg]
  ring

/-- Per-document advance contribution to a user balance. -/
def advContrib (userId : Nat) (a : Advance) : ℚ :=
  if a.userId = userId && a.status = .completed && a.isDeleted = false then a.amount else 0

/-- Per-document expense contribution to a user balance. -/
def expContrib (userId : Nat) (e : Expense) : ℚ :=
  if e.userId = userId && e.status = .approved then e.approvedAmount.getD 0 else 0

/-- A filtered sum is the unfiltered sum of guarded terms. -/
theorem sum_filter_map_eq {α : Type} (p : α → Bool) (f : α → ℚ) (l : List α) :
    ((l.filter p).map f).sum = (l.map (fun x => if p x then f x else 0)).sum := by
  induction l with
  | nil => rfl
  | cons x xs ih =>
    by_cases hp : p x = true
    · simp [List.filter_cons, hp, ih]
    · simp [List.filter_cons, hp, ih]

/-- calculateBalance as a pair of unfiltered contribution sums. -/
theorem calculateBalance_eq_contribs (s : State) (userId : Nat) :
    calculateBalance s userId
      = (s.advances.map (advContrib userId)).sum - (s.expenses.map (expContrib userId)).sum := by
  unfold calculateBalance advContrib expContrib
  rw [sum_filter_map_eq, sum_filter_map_eq]

/-- setByKey is the identity when no document carries the key. -/
theorem setByKey_id_of_no_match {α : Type} (key : α → Nat) (l : List α) (a : α)
    (h : ∀ y ∈ l, key y ≠ key a) : setByKey key l a = l := by
  induction l with
  | nil => rfl
  | cons b t ih =>
    unfold setByKey at ih ⊢
    simp only [List.map_cons]
    rw [if_neg (h b (List.mem_cons_self b t)), ih (fun y hy => h y (List.mem_cons_of_mem b hy))]

/-- Every member of setByKey is the written document or an untouched
    original with a different key. -/
theorem mem_setByKey_strong {α : Type} (key : α → Nat) (l : List α) (a x : α)
    (h : x ∈ setByKey key l a) : x = a ∨ (x ∈ l ∧ key x ≠ key a) := by
  induction l with
  | nil => cases h
  | cons b t ih =>
    unfold setByKey at h ih
    simp only [List.map_cons, List.mem_cons] at h
    rcases h with h | h
    · by_cases hb : key b = key a
      · rw [if_pos hb] at h
        exact Or.inl h
      · rw [if_neg hb] at h
        exact Or.inr ⟨h ▸ List.mem_cons_self b t, h ▸ hb⟩
    · rcases ih h with h1 | ⟨h1, h2⟩
      · exact Or.inl h1
      · exact Or.inr ⟨List.mem_cons_of_mem b h1, h2⟩

/-- With pairwise distinct keys, two members sharing a key coincide. -/
theorem unique_by_key {α : Type} (key : α → Nat) (l : List α)
    (hnd : (l.map key).Nodup) (x y : α) (hx : x ∈ l) (hy : y ∈ l)
    (hk : key x = key y) : x = y := by
  have h1 := find?_id_of_nodup key l x (key y) hnd hx hk
  have h2 := find?_id_of_nodup key l y (key y) hnd hy rfl
  rw [h1] at h2
  exact Option.some.inj h2

/-- Replacing the unique key holder moves a term sum by the difference of
    the two documents. -/
theorem sum_map_setByKey {α : Type} (key : α → Nat) (g : α → ℚ) (l : List α) (a e : α)
    (hnd : (l.map key).Nodup) (hmem : e ∈ l) (hkey : key e = key a) :
    ((setByKey key l a).map g).sum = (l.map g).sum - g e + g a := by
  induction l with
  | nil => cases hmem
  | cons b t ih =>
    rw [List.map_cons, List.nodup_cons] at hnd
    unfold setByKey at ih ⊢
    simp only [List.map_cons, List.sum_cons]
    by_cases hb : key b = key a
    · rw [if_pos hb]
      have hbe : e = b := by
        rcases List.mem_cons.mp hmem with rfl | hmem
        · rfl
        · refine absurd ?_ hnd.1
          rw [hb, ← hkey]
          exact List.mem_map_of_mem key hmem
      have htid : t.map (fun x => if key x = key a then a else x) = t := by
        have h0 : ∀ y ∈ t, key y ≠ key a := by
          intro y hy hya
          refine hnd.1 ?_
          rw [hb, ← hya]
          exact List.mem_map_of_mem key hy
        have h1 := setByKey_id_of_no_match key t a h0
        unfold setByKey at h1
        exact h1
      rw [htid, hbe]
      ring
    · rw [if_neg hb]
      have hme : e ∈ t := by
        rcases List.mem_cons.mp hmem with rfl | hmem
        · exact absurd hkey hb
        · exact hmem
      rw [ih hnd.2 hme]
      ring

/-- Erasing documents whose term vanishes leaves a term sum unchanged. -/
theorem sum_map_eraseP_of_zero {α : Type} (p : α → Bool) (g : α → ℚ) (l : List α)
    (h : ∀ x ∈ l, p x = true → g x = 0) :
    ((l.eraseP p).map g).sum = (l.map g).sum := by
  induction l with
  | nil => rfl
  | cons b t ih =>
    by_cases hb : p b = true
    · rw [List.eraseP_cons_of_pos hb, List.map_cons, List.sum_cons,
        h b (List.mem_cons_self b t) hb, zero_add]
    · rw [List.eraseP_cons_of_neg (by simp [hb]), List.map_cons, List.map_cons,
        List.sum_cons, List.sum_cons, ih (fun x hx hp => h x (List.mem_cons_of_mem b hx) hp)]

/-- The store invariant the embedded controllers maintain: distinct user
    and expense ids, fresh-id discipline, resolvable expense owners and
    journey references, non-negative journey totals, and the balance
    equation between the stored scalar and the ledger. -/
structure StoreInv (s : State) : Prop where
  usersNodup : (s.users.map User.id).Nodup
  expNodup : (s.expenses.map Expense.id).Nodup
  expFresh : ∀ e ∈ s.expenses, e.id < s.nextId
  owners : ∀ e ∈ s.expenses, (findUser s e.userId).isSome = true
  journeysNonneg : ∀ j ∈ s.journeys, 0 ≤ j.additionalExpensesTotal
  jrefs : ∀ e ∈ s.expenses, ∀ jid, e.journeyId = some jid → (findJourney s jid).isSome = true
  balanced : ∀ u ∈ s.users, u.advanceBalance = calculateBalance s u.id

/-- A sane store in the bulk-theorem sense follows from the invariant. -/
theorem StoreInv.toStoreOk (s : State) (h : StoreInv s) : StoreOk s :=
  ⟨h.expNodup, h.owners, h.journeysNonneg⟩

/-- calculateBalance reads only the advances and expenses columns. -/
theorem calculateBalance_cols (s₁ s₂ : State) (uid : Nat)
    (ha : s₂.advances = s₁.advances) (he : s₂.expenses = s₁.expenses) :
    calculateBalance s₂ uid = calculateBalance s₁ uid := by
  unfold calculateBalance
  rw [ha, he]

/-- The invariant depends only on the non-lock columns. -/
theorem Inv_cols (s₁ s₂ : State)
    (hu : s₂.users = s₁.users) (hj : s₂.journeys = s₁.journeys)
    (he : s₂.expenses = s₁.expenses) (ha : s₂.advances = s₁.advances)
    (hn : s₂.nextId = s₁.nextId) (hInv : StoreInv s₁) : StoreInv s₂ := by
  have hfu : ∀ i, findUser s₂ i = findUser s₁ i := by
    intro i
    unfold findUser
    rw [hu]
  have hfj : ∀ i, findJourney s₂ i = findJourney s₁ i := by
    intro i
    unfold findJourney
    rw [hj]
  refine ⟨?_, ?_, ?_, ?_, ?_, ?_, ?_⟩
  · rw [hu]
    exact hInv.usersNodup
  · rw [he]
    exact hInv.expNodup
  · intro e hmem
    rw [hn]
    exact hInv.expFresh e (he ▸ hmem)
  · intro e hmem
    rw [hfu]
    exact hInv.owners e (he ▸ hmem)
  · intro j hmem
    exact hInv.journeysNonneg j (hj ▸ hmem)
  · intro e hmem jid hjid
    rw [hfj]
    exact hInv.jrefs e (he ▸ hmem) jid hjid
  · intro u hmem
    rw [calculateBalance_cols s₁ s₂ u.id ha he]
    exact hInv.balanced u (hu ▸ hmem)

/-- Saving an expense document under an existing id shifts each balance by
    the contribution difference of the two documents. -/
theorem calculateBalance_saveExpense (s : State) (e e1 : Expense) (uid : Nat)
    (hnd : (s.expenses.map Expense.id).Nodup) (hmem : e ∈ s.expenses)
    (hkey : e.id = e1.id) :
    calculateBalance (saveExpense s e1) uid
      = calculateBalance s uid + expContrib uid e - expContrib uid e1 := by
  rw [calculateBalance_eq_contribs, calculateBalance_eq_contribs]
  have hadv : (saveExpense s e1).advances = s.advances := rfl
  have hexp : (saveExpense s e1).expenses = setByKey Expense.id s.expenses e1 := rfl
  rw [hadv, hexp, sum_map_setByKey Expense.id (expContrib uid) s.expenses e1 e hnd hmem hkey]
  ring

/-- A pending document contributes nothing to any balance. -/
theorem expContrib_pending (e : Expense) (hpend : e.status = .pending) :
    ∀ uid, expContrib uid e = 0 := by
  intro uid
  unfold expContrib
  simp [hpend]

/-- An approved document contributes its approvedAmount to its owner and
    nothing elsewhere. -/
theorem expContrib_approved (e1 : Expense) (amt : ℚ) (hst : e1.status = .approved)
    (hamt : e1.approvedAmount = some amt) :
    ∀ uid, expContrib uid e1 = if e1.userId = uid then amt else 0 := by
  intro uid
  unfold expContrib
  rw [hst, hamt]
  by_cases h : e1.userId = uid
  · simp [h]
  · simp [h]

/-- findUser resolves to a member carrying the looked-up id. -/
theorem findUser_char (s : State) (i : Nat) (u : User) (h : findUser s i = some u) :
    u ∈ s.users ∧ u.id = i := by
  unfold findUser at h
  have hp := List.find?_some h
  exact ⟨List.mem_of_find?_eq_some h, of_decide_eq_true hp⟩

/-- findExpense resolves to a member carrying the looked-up id. -/
theorem findExpense_char (s : State) (i : Nat) (e : Expense) (h : findExpense s i = some e) :
    e ∈ s.expenses ∧ e.id = i := by
  unfold findExpense at h
  have hp := List.find?_some h
  exact ⟨List.mem_of_find?_eq_some h, of_decide_eq_true hp⟩

/-- The closing step of every approval: after the approved document is
    written over a pending one (and the journeys column possibly bumped,
    staying non-negative), debiting the owner by the approved amount
    restores the invariant. -/
theorem StoreInv_finish (s smid sfin : State) (e e1 : Expense) (amt : ℚ) (user : User)
    (hInv : StoreInv s)
    (hmem : e ∈ s.expenses)
    (hid : e1.id = e.id) (huid : e1.userId = e.userId) (hjid : e1.journeyId = e.journeyId)
    (hpend : e.status = .pending) (hst : e1.status = .approved)
    (hamt : e1.approvedAmount = some amt)
    (husers : smid.users = s.users)
    (hadv : smid.advances = s.advances)
    (hexp : smid.expenses = setByKey Expense.id s.expenses e1)
    (hnid : smid.nextId = s.nextId)
    (hjn : ∀ j ∈ smid.journeys, 0 ≤ j.additionalExpensesTotal)
    (hjref : ∀ jid, (findJourney s jid).isSome = true → (findJourney smid jid).isSome = true)
    (huser : findUser smid e1.userId = some user)
    (hfu : sfin.users = setByKey User.id smid.users
        { user with advanceBalance := user.advanceBalance - amt })
    (hfe : sfin.expenses = smid.expenses)
    (hfj : sfin.journeys = smid.journeys)
    (hfa : sfin.advances = smid.advances)
    (hfn : sfin.nextId = smid.nextId) :
    StoreInv sfin := by
  obtain ⟨humem, huids⟩ := findUser_char smid e1.userId user huser
  have humem2 : user ∈ s.users := husers ▸ humem
  have hcalcmid : ∀ uid, calculateBalance smid uid
      = calculateBalance s uid - (if e1.userId = uid then amt else 0) := by
    intro uid
    rw [calculateBalance_eq_contribs, calculateBalance_eq_contribs, hadv, hexp,
      sum_map_setByKey Expense.id (expContrib uid) s.expenses e1 e hInv.expNodup hmem
        (by rw [hid]),
      expContrib_pending e hpend uid, expContrib_approved e1 amt hst hamt uid]
    ring
  have hcfin : ∀ uid, calculateBalance sfin uid = calculateBalance smid uid := by
    intro uid
    exact calculateBalance_cols smid sfin uid hfa hfe
  refine ⟨?_, ?_, ?_, ?_, ?_, ?_, ?_⟩
  · rw [hfu, setByKey_map_key, husers]
    exact hInv.usersNodup
  · rw [hfe, hexp, setByKey_map_key]
    exact hInv.expNodup
  · intro x hx
    rw [hfe, hexp] at hx
    rw [hfn, hnid]
    rcases mem_setByKey_strong Expense.id s.expenses e1 x hx with rfl | ⟨hx2, _⟩
    · rw [hid]
      exact hInv.expFresh e hmem
    · exact hInv.expFresh x hx2
  · intro x hx
    rw [hfe, hexp] at hx
    have hiso : ∀ i, (findUser sfin i).isSome = (findUser s i).isSome := by
      intro i
      unfold findUser
      rw [hfu]
      exact find?_isSome_congr User.id _ _ i (by rw [setByKey_map_key, husers])
    rcases mem_setByKey_strong Expense.id s.expenses e1 x hx with rfl | ⟨hx2, _⟩
    · rw [hiso, huid]
      exact hInv.owners e hmem
    · rw [hiso]
      exact hInv.owners x hx2
  · intro j hj2
    rw [hfj] at hj2
    exact hjn j hj2
  · intro x hx jid hxj
    rw [hfe, hexp] at hx
    have hjs : ∀ i, findJourney sfin i = findJourney smid i := by
      intro i
      unfold findJourney
      rw [hfj]
    rcases mem_setByKey_strong Expense.id s.expenses e1 x hx with rfl | ⟨hx2, _⟩
    · rw [hjs]
      refine hjref jid (hInv.jrefs e hmem jid ?_)
      rw [← hjid]
      exact hxj
    · rw [hjs]
      exact hjref jid (hInv.jrefs x hx2 jid hxj)
  · intro u hu
    rw [hfu] at hu
    rcases mem_setByKey_strong User.id smid.users _ u hu with rfl | ⟨hu2, hne⟩
    · dsimp only
      rw [hcfin, hcalcmid, hInv.balanced user humem2, huids, if_pos rfl]
    · have hne2 : u.id ≠ user.id := hne
      have hu3 : u ∈ s.users := husers ▸ hu2
      rw [hcfin, hcalcmid, if_neg (fun hcontra => hne2 (by rw [← hcontra, huids])), sub_zero]
      exact hInv.balanced u hu3

/-- Writing a document back without changing its owner, status, approved
    amount footprint or journey link preserves the invariant. -/
theorem StoreInv_saveExpense_same (s : State) (e e1 : Expense) (hInv : StoreInv s)
    (hmem : e ∈ s.expenses)
    (hid : e1.id = e.id) (huid : e1.userId = e.userId) (hjid : e1.journeyId = e.journeyId)
    (hcontrib : ∀ uid, expContrib uid e1 = expContrib uid e) :
    StoreInv (saveExpense s e1) := by
  have hexp : (saveExpense s e1).expenses = setByKey Expense.id s.expenses e1 := rfl
  refine ⟨hInv.usersNodup, ?_, ?_, ?_, hInv.journeysNonneg, ?_, ?_⟩
  · rw [hexp, setByKey_map_key]
    exact hInv.expNodup
  · intro x hx
    rw [hexp] at hx
    show x.id < s.nextId
    rcases mem_setByKey_strong Expense.id s.expenses e1 x hx with rfl | ⟨hx2, _⟩
    · rw [hid]
      exact hInv.expFresh e hmem
    · exact hInv.expFresh x hx2
  · intro x hx
    rw [hexp] at hx
    rw [findUser_saveExpense]
    rcases mem_setByKey_strong Expense.id s.expenses e1 x hx with rfl | ⟨hx2, _⟩
    · rw [huid]
      exact hInv.owners e hmem
    · exact hInv.owners x hx2
  · intro x hx jid hxj
    rw [hexp] at hx
    rw [findJourney_saveExpense]
    rcases mem_setByKey_strong Expense.id s.expenses e1 x hx with rfl | ⟨hx2, _⟩
    · refine hInv.jrefs e hmem jid ?_
      rw [← hjid]
      exact hxj
    · exact hInv.jrefs x hx2 jid hxj
  · intro u hu
    rw [calculateBalance_saveExpense s e e1 u.id hInv.expNodup hmem (by rw [hid]),
      hcontrib u.id, add_sub_cancel_right]
    exact hInv.balanced u hu

/-- rejectExpense preserves the invariant: failures leave the store
    untouched and a rejection never changes any balance contribution. -/
theorem StoreInv_rejectExpense (s : State) (actor : Actor) (id : Nat)
    (reason : Option String) (hInv : StoreInv s) :
    StoreInv (rejectExpense s actor id reason).2 := by
  unfold rejectExpense
  by_cases h1 : actor.role ≠ .admin ∧ actor.role ≠ .superadmin
  · rw [if_pos h1]
    exact hInv
  · rw [if_neg h1]
    cases hfind : findExpense s id with
    | none => exact hInv
    | some expense =>
      dsimp only
      cases hrbac : approverRbac s actor expense with
      | error err => exact hInv
      | ok u0 =>
        dsimp only
        by_cases h2 : expense.status ≠ .pending
        · rw [if_pos h2]
          exact hInv
        · rw [if_neg h2]
          by_cases h3 : monthIsLocked s expense.date = true
          · rw [if_pos h3]
            exact hInv
          · rw [if_neg h3]
            try dsimp only
            split
            · exact hInv
            · obtain ⟨hmem, hide⟩ := findExpense_char s id expense hfind
              refine StoreInv_saveExpense_same s expense _ hInv hmem rfl rfl rfl ?_
              intro uid
              have hpend : expense.status = .pending := not_not.mp h2
              unfold expContrib
              simp [hpend]

/-- updateExpense preserves the invariant: only pending documents are
    editable and the edit keeps them pending. -/
theorem StoreInv_updateExpense (s : State) (actor : Actor) (id : Nat) (r : UpdateReq)
    (hInv : StoreInv s) : StoreInv (updateExpense s actor id r).2 := by
  unfold updateExpense
  cases hfind : findExpense s id with
  | none => exact hInv
  | some expense =>
    dsimp only
    by_cases h1 : actor.role ≠ .admin ∧ expense.userId ≠ actor.userId
    · rw [if_pos h1]
      exact hInv
    · rw [if_neg h1]
      by_cases h2 : expense.status ≠ .pending
      · rw [if_pos h2]
        exact hInv
      · rw [if_neg h2]
        by_cases h3 : monthIsLocked s expense.date = true
        · rw [if_pos h3]
          exact hInv
        · rw [if_neg h3]
          try dsimp only
          split
          all_goals split
          all_goals try exact hInv
          all_goals obtain ⟨hmem, hide⟩ := findExpense_char s id expense hfind
          all_goals refine StoreInv_saveExpense_same s expense _ hInv hmem rfl rfl rfl ?_
          all_goals intro uid
          all_goals have hpend : expense.status = .pending := not_not.mp h2
          all_goals unfold expContrib
          all_goals simp [hpend]

/-- deleteExpense preserves the invariant: only non-approved documents can
    go, and they carry no balance contribution. -/
theorem StoreInv_deleteExpense (s : State) (actor : Actor) (id : Nat)
    (hInv : StoreInv s) : StoreInv (deleteExpense s actor id).2 := by
  unfold deleteExpense
  cases hfind : findExpense s id with
  | none => exact hInv
  | some expense =>
    dsimp only
    by_cases h1 : actor.role ≠ .admin ∧ expense.userId ≠ actor.userId
    · rw [if_pos h1]
      exact hInv
    · rw [if_neg h1]
      by_cases h2 : expense.status = .approved
      · rw [if_pos h2]
        exact hInv
      · rw [if_neg h2]
        by_cases h3 : monthIsLocked s expense.date = true
        · rw [if_pos h3]
          exact hInv
        · rw [if_neg h3]
          dsimp only
          obtain ⟨hmem, hide⟩ := findExpense_char s id expense hfind
          have hsub := List.eraseP_sublist (p := fun x => decide (x.id = id)) s.expenses
          refine ⟨hInv.usersNodup, ?_, ?_, ?_, hInv.journeysNonneg, ?_, ?_⟩
          · exact List.Nodup.sublist (hsub.map Expense.id) hInv.expNodup
          · intro x hx
            show x.id < s.nextId
            exact hInv.expFresh x (hsub.subset hx)
          · intro x hx
            exact hInv.owners x (hsub.subset hx)
          · intro x hx jid hxj
            exact hInv.jrefs x (hsub.subset hx) jid hxj
          · intro u hu
            have hc : calculateBalance
                { s with expenses := s.expenses.eraseP (fun x => decide (x.id = id)) } u.id
                = calculateBalance s u.id := by
              rw [calculateBalance_eq_contribs, calculateBalance_eq_contribs]
              dsimp only
              rw [sum_map_eraseP_of_zero (fun x => decide (x.id = id)) (expContrib u.id)
                s.expenses ?_]
              intro x hx hpx
              have hxid : x.id = id := of_decide_eq_true hpx
              have hxe : x = expense := unique_by_key Expense.id s.expenses hInv.expNodup
                x expense hx hmem (by rw [hxid, hide])
              rw [hxe]
              unfold expContrib
              simp [h2]
            rw [hc]
            exact hInv.balanced u hu

/-- Appending a fresh pending document with a resolvable owner and journey
    link preserves the invariant. -/
theorem StoreInv_insert_expense (s : State) (e : Expense) (hInv : StoreInv s)
    (hid : e.id = s.nextId) (hpend : e.status = .pending)
    (howner : (findUser s e.userId).isSome = true)
    (hjref : ∀ jid, e.journeyId = some jid → (findJourney s jid).isSome = true) :
    StoreInv { s with expenses := s.expenses ++ [e], nextId := s.nextId + 1 } := by
  refine ⟨hInv.usersNodup, ?_, ?_, ?_, hInv.journeysNonneg, ?_, ?_⟩
  · show ((s.expenses ++ [e]).map Expense.id).Nodup
    rw [List.map_append, List.nodup_append]
    refine ⟨hInv.expNodup, List.nodup_singleton _, ?_⟩
    intro a ha hb
    simp only [List.map_cons, List.map_nil, List.mem_singleton] at hb
    rcases List.mem_map.mp ha with ⟨x, hx, hxid⟩
    have hlt := hInv.expFresh x hx
    rw [hxid] at hlt
    rw [hb, hid] at hlt
    exact absurd hlt (lt_irrefl _)
  · intro x hx
    show x.id < s.nextId + 1
    rcases List.mem_append.mp hx with hx | hx
    · exact Nat.lt_succ_of_lt (hInv.expFresh x hx)
    · rw [List.mem_singleton.mp hx, hid]
      exact Nat.lt_succ_self _
  · intro x hx
    show (findUser s x.userId).isSome = true
    rcases List.mem_append.mp hx with hx | hx
    · exact hInv.owners x hx
    · rw [List.mem_singleton.mp hx]
      exact howner
  · intro x hx jid hxj
    show (findJourney s jid).isSome = true
    rcases List.mem_append.mp hx with hx | hx
    · exact hInv.jrefs x hx jid hxj
    · rw [List.mem_singleton.mp hx] at hxj
      exact hjref jid hxj
  · intro u hu
    have hc : calculateBalance
        { s with expenses := s.expenses ++ [e], nextId := s.nextId + 1 } u.id
        = calculateBalance s u.id := by
      rw [calculateBalance_eq_contribs, calculateBalance_eq_contribs]
      dsimp only
      rw [List.map_append, List.sum_append]
      simp [expContrib_pending e hpend u.id]
    rw [hc]
    exact hInv.balanced u hu

/-- createExpense preserves the invariant, given the authenticated caller
    exists: failures leave the store untouched, new documents are fresh
    and pending, and the merge path never touches status or approved
    amount. -/
theorem StoreInv_createExpense (s : State) (userId : Nat) (r : CreateReq)
    (hInv : StoreInv s) (huser : (findUser s userId).isSome = true) :
    StoreInv (createExpense s userId r).2 := by
  have hinsgen : ∀ category : String,
      (∀ jid, (newExpenseDoc s userId r category).journeyId = some jid →
        (findJourney s jid).isSome = true) →
      StoreInv (insertExpense s (newExpenseDoc s userId r category)).2 := by
    intro category hjr
    unfold insertExpense
    split
    · exact hInv
    · exact StoreInv_insert_expense s _ hInv rfl rfl huser hjr
  unfold createExpense
  by_cases h1 : monthIsLocked s r.date = true
  · rw [if_pos h1]
    exact hInv
  · rw [if_neg h1]
    dsimp only
    by_cases h2 : r.expenseCategory.getD "general" = "journey" ∧ r.journeyId = none
    · rw [if_pos h2]
      exact hInv
    · rw [if_neg h2]
      cases hjid : r.journeyId with
      | none =>
        dsimp only
        refine hinsgen _ ?_
        intro jid hj
        unfold newExpenseDoc at hj
        dsimp only at hj
        rw [hjid] at hj
        simp at hj
      | some jid0 =>
        dsimp only
        by_cases h3 : r.expenseCategory.getD "general" = "journey" ∨ r.type = "journey"
        · rw [if_pos h3]
          cases hfj : findJourney s jid0 with
          | none => exact hInv
          | some journey =>
            dsimp only
            by_cases h4 : journey.userId ≠ userId
            · rw [if_pos h4]
              exact hInv
            · rw [if_neg h4]
              have hjr1 : ∀ jid, (newExpenseDoc s userId r
                  (r.expenseCategory.getD "general")).journeyId = some jid →
                  (findJourney s jid).isSome = true := by
                intro jid hj
                unfold newExpenseDoc at hj
                dsimp only at hj
                rw [if_pos h3, hjid] at hj
                cases hj
                rw [hfj]
                rfl
              cases hje : journey.expenseId with
              | none =>
                dsimp only
                exact hinsgen _ hjr1
              | some eid =>
                dsimp only
                cases hfe : findExpense s eid with
                | none => exact hinsgen _ hjr1
                | some existing =>
                  dsimp only
                  split
                  · exact hInv
                  · obtain ⟨hmem, hide⟩ := findExpense_char s eid existing hfe
                    refine StoreInv_saveExpense_same s existing _ hInv hmem rfl rfl rfl ?_
                    intro uid
                    unfold expContrib
                    rfl
        · rw [if_neg h3]
          refine hinsgen _ ?_
          intro jid hj
          unfold newExpenseDoc at hj
          dsimp only at hj
          rw [if_neg h3] at hj
          cases hj

/-- Appending a completed advance and crediting its owner by the same
    amount preserves the invariant. -/
theorem StoreInv_advance (s sfin : State) (user : User) (amount : ℚ) (adv : Advance)
    (hInv : StoreInv s)
    (humem : user ∈ s.users)
    (hadvu : adv.userId = user.id)
    (hamt : adv.amount = amount)
    (hst : adv.status = .completed)
    (hdel : adv.isDeleted = false)
    (hfu : sfin.users = setByKey User.id s.users
        { user with advanceBalance := user.advanceBalance + amount })
    (hfe : sfin.expenses = s.expenses)
    (hfj : sfin.journeys = s.journeys)
    (hfa : sfin.advances = s.advances ++ [adv])
    (hfn : sfin.nextId = s.nextId + 1) :
    StoreInv sfin := by
  have hcontrib : ∀ uid, advContrib uid adv = if uid = user.id then amount else 0 := by
    intro uid
    unfold advContrib
    rw [hadvu, hst, hdel, hamt]
    by_cases h : uid = user.id
    · simp [h]
    · have h2 : user.id ≠ uid := fun hh => h hh.symm
      simp [h, h2]
  refine ⟨?_, ?_, ?_, ?_, ?_, ?_, ?_⟩
  · rw [hfu, setByKey_map_key]
    exact hInv.usersNodup
  · rw [hfe]
    exact hInv.expNodup
  · intro x hx
    rw [hfe] at hx
    rw [hfn]
    exact Nat.lt_succ_of_lt (hInv.expFresh x hx)
  · intro x hx
    rw [hfe] at hx
    have hiso : (findUser sfin x.userId).isSome = (findUser s x.userId).isSome := by
      unfold findUser
      rw [hfu]
      exact find?_isSome_congr User.id _ _ x.userId (by rw [setByKey_map_key])
    rw [hiso]
    exact hInv.owners x hx
  · intro j hj
    rw [hfj] at hj
    exact hInv.journeysNonneg j hj
  · intro x hx jid hxj
    rw [hfe] at hx
    have hjs : findJourney sfin jid = findJourney s jid := by
      unfold findJourney
      rw [hfj]
    rw [hjs]
    exact hInv.jrefs x hx jid hxj
  · intro u hu
    rw [hfu] at hu
    have hcalc : ∀ uid, calculateBalance sfin uid
        = calculateBalance s uid + advContrib uid adv := by
      intro uid
      rw [calculateBalance_eq_contribs, calculateBalance_eq_contribs, hfa, hfe,
        List.map_append, List.sum_append]
      simp only [List.map_cons, List.map_nil, List.sum_cons, List.sum_nil]
      ring
    rcases mem_setByKey_strong User.id s.users _ u hu with rfl | ⟨hu2, hne⟩
    · dsimp only
      rw [hcalc, hcontrib, if_pos rfl, hInv.balanced user humem]
    · have hne2 : u.id ≠ user.id := hne
      rw [hcalc, hcontrib, if_neg hne2, add_zero]
      exact hInv.balanced u hu2

/-- addAdvance preserves the invariant. -/
theorem StoreInv_addAdvance (s : State) (actor : Actor) (userId : Nat) (amount : ℚ)
    (date : JsDate) (hInv : StoreInv s) :
    StoreInv (addAdvance s actor userId amount date).2 := by
  unfold addAdvance
  cases hfu2 : findUser s userId with
  | none => exact hInv
  | some user =>
    dsimp only
    by_cases h1 : actor.role = .admin ∧ user.assignedTo ≠ some actor.userId
    · rw [if_pos h1]
      exact hInv
    · rw [if_neg h1]
      by_cases h2 : amount < 1 / 100
      · rw [if_pos h2]
        exact hInv
      · rw [if_neg h2]
        obtain ⟨humem, huid⟩ := findUser_char s userId user hfu2
        try dsimp only
        exact StoreInv_advance s _ user amount _ hInv humem huid.symm rfl rfl rfl
          rfl rfl rfl rfl rfl

/-- findJourney resolves to a member carrying the looked-up id. -/
theorem findJourney_char (s : State) (i : Nat) (j : Journey) (h : findJourney s i = some j) :
    j ∈ s.journeys ∧ j.id = i := by
  unfold findJourney at h
  have hp := List.find?_some h
  exact ⟨List.mem_of_find?_eq_some h, of_decide_eq_true hp⟩

/-- approveExpense preserves the invariant: failures leave the store
    untouched and a success debits the owner by exactly the approved
    amount it stores. -/
theorem StoreInv_approveExpense (s : State) (actor : Actor) (id : Nat) (opt : Option Int)
    (dd : Option ℚ) (notes : Option String) (hInv : StoreInv s) :
    StoreInv (approveExpense s actor id opt dd notes).2 := by
  unfold approveExpense
  by_cases h1 : actor.role ≠ .admin ∧ actor.role ≠ .superadmin
  · rw [if_pos h1]
    exact hInv
  · rw [if_neg h1]
    cases hfind : findExpense s id with
    | none => exact hInv
    | some expense =>
      dsimp only
      cases hrbac : approverRbac s actor expense with
      | error err => exact hInv
      | ok u0 =>
        dsimp only
        by_cases h2 : expense.status ≠ .pending
        · rw [if_pos h2]
          exact hInv
        · rw [if_neg h2]
          by_cases h3 : monthIsLocked s expense.date = true
          · rw [if_pos h3]
            exact hInv
          · rw [if_neg h3]
            try dsimp only
            cases hamtE : (if expense.type = "journey" then
                calculateApprovedAmount expense opt dd
              else Except.ok expense.amount) with
            | error cerr => exact hInv
            | ok amt =>
              dsimp only
              by_cases hv : expenseSchemaValid
                  (approvedExpenseDoc actor opt dd notes expense amt) = true
              · rw [if_neg (not_not_intro hv)]
                obtain ⟨hmem, hide⟩ := findExpense_char s id expense hfind
                have hpend : expense.status = .pending := not_not.mp h2
                have hnn : (0 : ℚ) ≤ amt := valid_amount_nonneg _ amt hv rfl
                have hou := hInv.owners expense hmem
                obtain ⟨user, hufind⟩ := Option.isSome_iff_exists.mp hou
                unfold approveApplyEffects
                dsimp only
                have hjeq : (approvedExpenseDoc actor opt dd notes expense amt).journeyId
                    = expense.journeyId := rfl
                have hueq : (approvedExpenseDoc actor opt dd notes expense amt).userId
                    = expense.userId := rfl
                rw [hjeq]
                cases hjc : expense.journeyId with
                | none =>
                  try dsimp only
                  rw [findUser_saveExpense, hueq, hufind]
                  try dsimp only
                  exact StoreInv_finish s
                    (saveExpense s (approvedExpenseDoc actor opt dd notes expense amt))
                    _ expense (approvedExpenseDoc actor opt dd notes expense amt) amt user
                    hInv hmem rfl rfl rfl hpend rfl rfl rfl rfl rfl rfl
                    (fun j hj => hInv.journeysNonneg j hj)
                    (fun jid2 hs => hs)
                    hufind rfl rfl rfl rfl rfl
                | some jid =>
                  try dsimp only
                  rw [findJourney_saveExpense]
                  have hjis := hInv.jrefs expense hmem jid hjc
                  obtain ⟨journey, hjfind⟩ := Option.isSome_iff_exists.mp hjis
                  rw [hjfind]
                  try dsimp only
                  obtain ⟨hjmem, hjid2⟩ := findJourney_char s jid journey hjfind
                  have hpos : (0 : ℚ) ≤ journey.additionalExpensesTotal + amt :=
                    add_nonneg (hInv.journeysNonneg journey hjmem) hnn
                  rw [if_neg (not_lt.mpr hpos)]
                  try dsimp only
                  rw [findUser_saveJourney, findUser_saveExpense, hueq, hufind]
                  try dsimp only
                  refine StoreInv_finish s
                    (saveJourney (saveExpense s
                        (approvedExpenseDoc actor opt dd notes expense amt))
                      { journey with additionalExpensesTotal :=
                          journey.additionalExpensesTotal + amt })
                    _ expense (approvedExpenseDoc actor opt dd notes expense amt) amt user
                    hInv hmem rfl rfl rfl hpend rfl rfl rfl rfl rfl rfl
                    ?_ ?_ hufind rfl rfl rfl rfl rfl
                  · intro j hj
                    rcases mem_setByKey_strong Journey.id s.journeys _ j hj with rfl | ⟨hj2, _⟩
                    · exact hpos
                    · exact hInv.journeysNonneg j hj2
                  · intro jid2 hs
                    have hiso := find?_isSome_congr Journey.id
                      (setByKey Journey.id s.journeys
                        { journey with additionalExpensesTotal :=
                            journey.additionalExpensesTotal + amt })
                      s.journeys jid2 (by rw [setByKey_map_key])
                    exact hiso.trans hs
              · rw [if_pos hv]
                exact hInv

/-- One bulk iteration preserves the invariant and leaves every other
    expense lookup unchanged, provided the item is a stored pending
    document. -/
theorem StoreInv_bulkItem (actor : Actor) (opt : Option Int) (notes : Option String)
    (s : State) (res : BulkResults) (e : Expense)
    (hInv : StoreInv s) (hfind : findExpense s e.id = some e) (hpend : e.status = .pending) :
    StoreInv (bulkItem actor opt notes (s, res) e).1
    ∧ ∀ i, i ≠ e.id → findExpense (bulkItem actor opt notes (s, res) e).1 i
        = findExpense s i := by
  obtain ⟨hmem, _⟩ := findExpense_char s e.id e hfind
  unfold bulkItem
  dsimp only
  by_cases hml : monthIsLocked s e.date = true
  · rw [if_pos hml]
    exact ⟨hInv, fun i hi => rfl⟩
  · rw [if_neg hml]
    cases hamtE : (if e.type = "journey" then calculateApprovedAmount e opt none
        else Except.ok e.amount) with
    | error cerr =>
      dsimp only
      exact ⟨hInv, fun i hi => rfl⟩
    | ok amt =>
      dsimp only
      by_cases hv : expenseSchemaValid (bulkApprovedDoc actor opt notes e amt) = true
      · rw [if_neg (not_not_intro hv)]
        have hnn : (0 : ℚ) ≤ amt := valid_amount_nonneg _ amt hv rfl
        have hou := hInv.owners e hmem
        obtain ⟨user, hufind⟩ := Option.isSome_iff_exists.mp hou
        have hjeq : (bulkApprovedDoc actor opt notes e amt).journeyId = e.journeyId := rfl
        have hueq : (bulkApprovedDoc actor opt notes e amt).userId = e.userId := rfl
        rw [hjeq]
        cases hjc : e.journeyId with
        | none =>
          try dsimp only
          rw [findUser_saveExpense, hueq, hufind]
          try dsimp only
          constructor
          · exact StoreInv_finish s
              (saveExpense s (bulkApprovedDoc actor opt notes e amt))
              _ e (bulkApprovedDoc actor opt notes e amt) amt user
              hInv hmem rfl rfl rfl hpend rfl rfl rfl rfl rfl rfl
              (fun j hj => hInv.journeysNonneg j hj)
              (fun jid2 hs => hs)
              hufind rfl rfl rfl rfl rfl
          · intro i hi
            unfold findExpense
            exact find?_setByKey_ne Expense.id s.expenses _ i (fun hc => hi hc.symm)
        | some jid =>
          try dsimp only
          rw [findJourney_saveExpense]
          have hjis := hInv.jrefs e hmem jid hjc
          obtain ⟨journey, hjfind⟩ := Option.isSome_iff_exists.mp hjis
          rw [hjfind]
          try dsimp only
          obtain ⟨hjmem, hjid2⟩ := findJourney_char s jid journey hjfind
          have hpos : (0 : ℚ) ≤ journey.additionalExpensesTotal + amt :=
            add_nonneg (hInv.journeysNonneg journey hjmem) hnn
          rw [if_neg (not_lt.mpr hpos)]
          try dsimp only
          rw [findUser_saveJourney, findUser_saveExpense, hueq, hufind]
          try dsimp only
          constructor
          · refine StoreInv_finish s
              (saveJourney (saveExpense s (bulkApprovedDoc actor opt notes e amt))
                { journey with additionalExpensesTotal :=
                    journey.additionalExpensesTotal + amt })
              _ e (bulkApprovedDoc actor opt notes e amt) amt user
              hInv hmem rfl rfl rfl hpend rfl rfl rfl rfl rfl rfl
              ?_ ?_ hufind rfl rfl rfl rfl rfl
            · intro j hj
              rcases mem_setByKey_strong Journey.id s.journeys _ j hj with rfl | ⟨hj2, _⟩
              · exact hpos
              · exact hInv.journeysNonneg j hj2
            · intro jid2 hs
              have hiso := find?_isSome_congr Journey.id
                (setByKey Journey.id s.journeys
                  { journey with additionalExpensesTotal :=
                      journey.additionalExpensesTotal + amt })
                s.journeys jid2 (by rw [setByKey_map_key])
              exact hiso.trans hs
          · intro i hi
            unfold findExpense
            exact find?_setByKey_ne Expense.id s.expenses _ i (fun hc => hi hc.symm)
      · rw [if_pos hv]
        exact ⟨hInv, fun i hi => rfl⟩

/-- The bulk-approval fold preserves the invariant over any batch of
    stored pending documents with distinct ids. -/
theorem StoreInv_bulkLoop (actor : Actor) (opt : Option Int) (notes : Option String)
    (es : List Expense) : ∀ (s : State) (res : BulkResults),
    StoreInv s → (∀ e ∈ es, findExpense s e.id = some e ∧ e.status = .pending) →
    (es.map Expense.id).Nodup →
    StoreInv (es.foldl (bulkItem actor opt notes) (s, res)).1 := by
  induction es with
  | nil =>
    intro s res hInv _ _
    exact hInv
  | cons e rest ih =>
    intro s res hInv hfinds hnd
    rw [List.foldl_cons]
    rw [List.map_cons, List.nodup_cons] at hnd
    obtain ⟨hfe, hpe⟩ := hfinds e (List.mem_cons_self e rest)
    obtain ⟨hInv1, hpres⟩ := StoreInv_bulkItem actor opt notes s res e hInv hfe hpe
    have hpair : bulkItem actor opt notes (s, res) e
        = ((bulkItem actor opt notes (s, res) e).1,
           (bulkItem actor opt notes (s, res) e).2) := rfl
    rw [hpair]
    refine ih _ _ hInv1 ?_ hnd.2
    intro x hx
    obtain ⟨hfx, hpx⟩ := hfinds x (List.mem_cons_of_mem e hx)
    have hne : x.id ≠ e.id := fun hc => hnd.1 (by
      rw [← hc]
      exact List.mem_map_of_mem Expense.id hx)
    rw [hpres x.id hne]
    exact ⟨hfx, hpx⟩

/-- bulkApproveExpenses preserves the invariant. -/
theorem StoreInv_bulkApprove (s : State) (actor : Actor) (ids : List Nat) (opt : Option Int)
    (notes : Option String) (mv : Option ℚ) (hInv : StoreInv s) :
    StoreInv (bulkApproveExpenses s actor ids opt notes mv).2 := by
  unfold bulkApproveExpenses
  by_cases h1 : actor.role ≠ .admin ∧ actor.role ≠ .superadmin
  · rw [if_pos h1]
    exact hInv
  · rw [if_neg h1]
    by_cases h2 : ids = []
    · rw [if_pos h2]
      exact hInv
    · rw [if_neg h2]
      dsimp only
      by_cases h3 : bulkPending s ids = []
      · rw [if_pos h3]
        exact hInv
      · rw [if_neg h3]
        by_cases h4 : actor.role = .admin ∧ bulkAccessible s actor (bulkPending s ids) = []
        · rw [if_pos h4]
          exact hInv
        · rw [if_neg h4]
          try dsimp only
          obtain ⟨hnd, hfp, _⟩ := filtered_batch_ok s actor ids mv (StoreInv.toStoreOk s hInv)
          exact StoreInv_bulkLoop actor opt notes _ s emptyBulkResults hInv hfp hnd

/-- createLock preserves the invariant: it touches only monthLocks. -/
theorem StoreInv_createLock (s : State) (userId : Nat) (year month : Int)
    (hInv : StoreInv s) : StoreInv (createLock s userId year month).2 := by
  unfold createLock
  by_cases h1 : ¬ monthLockKeyValid year month = true
  · rw [if_pos h1]
    exact hInv
  · rw [if_neg h1]
    cases hfind : s.monthLocks.find? (fun l =>
        l.userId = userId && l.year = year && l.month = month) with
    | none =>
      dsimp only
      exact Inv_cols s _ rfl rfl rfl rfl rfl hInv
    | some existing =>
      dsimp only
      by_cases h2 : existing.isLocked = true
      · rw [if_pos h2]
        exact hInv
      · rw [if_neg h2]
        exact Inv_cols s _ rfl rfl rfl rfl rfl hInv

/-- unlockMonth preserves the invariant: it touches only monthLocks. -/
theorem StoreInv_unlockMonth (s : State) (userId : Nat) (year month : Int)
    (hInv : StoreInv s) : StoreInv (unlockMonth s userId year month).2 := by
  unfold unlockMonth
  cases hfind : s.monthLocks.find? (fun l =>
      l.userId = userId && l.year = year && l.month = month) with
  | none => exact hInv
  | some lock =>
    dsimp only
    exact Inv_cols s _ rfl rfl rfl rfl rfl hInv

/-- The operations of the embedded API surface that can touch expenses,
    advances, journey totals, balances or month locks. -/
inductive Op
  | createOp (userId : Nat) (r : CreateReq)
  | updateOp (actor : Actor) (id : Nat) (r : UpdateReq)
  | deleteOp (actor : Actor) (id : Nat)
  | approveOp (actor : Actor) (id : Nat) (opt : Option Int) (dd : Option ℚ)
      (notes : Option String)
  | rejectOp (actor : Actor) (id : Nat) (reason : Option String)
  | bulkOp (actor : Actor) (ids : List Nat) (opt : Option Int) (notes : Option String)
      (mv : Option ℚ)
  | advanceOp (actor : Actor) (userId : Nat) (amount : ℚ) (date : JsDate)
  | lockOp (userId : Nat) (year month : Int)
  | unlockOp (userId : Nat) (year month : Int)

/-- Running one operation against the store; createExpense runs behind the
    auth middleware, which only admits existing users. -/
def applyOp (s : State) : Op → State
  | .createOp uid r => if (findUser s uid).isSome then (createExpense s uid r).2 else s
  | .updateOp a id r => (updateExpense s a id r).2
  | .deleteOp a id => (deleteExpense s a id).2
  | .approveOp a id o dd n => (approveExpense s a id o dd n).2
  | .rejectOp a id re => (rejectExpense s a id re).2
  | .bulkOp a ids o n mv => (bulkApproveExpenses s a ids o n mv).2
  | .advanceOp a uid amt d => (addAdvance s a uid amt d).2
  | .lockOp uid y m => (createLock s uid y m).2
  | .unlockOp uid y m => (unlockMonth s uid y m).2

/-- States reachable from a fresh deployment: no expenses or advances yet,
    zero balances, distinct user ids and sane journeys, then any sequence
    of API operations. -/
inductive Reachable : State → Prop
  | init (s : State) (hexp : s.expenses = []) (hadv : s.advances = [])
      (hbal : ∀ u ∈ s.users, u.advanceBalance = 0)
      (hnd : (s.users.map User.id).Nodup)
      (hjy : ∀ j ∈ s.journeys, 0 ≤ j.additionalExpensesTotal) : Reachable s
  | step (s : State) (op : Op) (h : Reachable s) : Reachable (applyOp s op)

/-- Every reachable store satisfies the invariant. -/
theorem reachable_inv (s : State) (h : Reachable s) : StoreInv s := by
  induction h with
  | init s hexp hadv hbal hnd hjy =>
    refine ⟨hnd, ?_, ?_, ?_, hjy, ?_, ?_⟩
    · simp [hexp]
    · intro e he
      rw [hexp] at he
      cases he
    · intro e he
      rw [hexp] at he
      cases he
    · intro e he jid hj
      rw [hexp] at he
      cases he
    · intro u hu
      rw [hbal u hu]
      unfold calculateBalance
      rw [hexp, hadv]
      simp
  | step s op hr ih =>
    cases op with
    | createOp uid r =>
      dsimp only [applyOp]
      by_cases hu : (findUser s uid).isSome = true
      · rw [if_pos hu]
        exact StoreInv_createExpense s uid r ih hu
      · rw [if_neg hu]
        exact ih
    | updateOp a id r => exact StoreInv_updateExpense s a id r ih
    | deleteOp a id => exact StoreInv_deleteExpense s a id ih
    | approveOp a id o dd n => exact StoreInv_approveExpense s a id o dd n ih
    | rejectOp a id re => exact StoreInv_rejectExpense s a id re ih
    | bulkOp a ids o n mv => exact StoreInv_bulkApprove s a ids o n mv ih
    | advanceOp a uid amt d => exact StoreInv_addAdvance s a uid amt d ih
    | lockOp uid y m => exact StoreInv_createLock s uid y m ih
    | unlockOp uid y m => exact StoreInv_unlockMonth s uid y m ih

/-- C3: for every user of a reachable store, replaying the merged
    chronological history of completed advances (credits) and approved
    expenses (debits), as getAdvanceHistory does, ends exactly at the
    stored advanceBalance scalar that the advance and approval operations
    maintain incrementally. -/
theorem c3_running_balance (s : State) (h : Reachable s) :
    ∀ u ∈ s.users, finalRunningBalance s u.id = u.advanceBalance := by
  intro u hu
  rw [replay_eq_calculateBalance]
  exact ((reachable_inv s h).balanced u hu).symm

/-- A concrete fresh deployment with two users. -/
def c3WState : State :=
  { users := [⟨1, none, 0⟩, ⟨2, none, 0⟩]
    journeys := []
    expenses := []
    advances := []
    monthLocks := []
    nextId := 1 }

/-- Witness for c3_running_balance: the fresh two-user deployment after
    one addAdvance operation crediting user 1 with 50. -/
theorem c3_running_balance_witness :
    Reachable (applyOp c3WState (Op.advanceOp ⟨2, .superadmin⟩ 1 50 ⟨2025, 6, 5⟩))
    ∧ ∀ u ∈ (applyOp c3WState (Op.advanceOp ⟨2, .superadmin⟩ 1 50 ⟨2025, 6, 5⟩)).users,
        finalRunningBalance
          (applyOp c3WState (Op.advanceOp ⟨2, .superadmin⟩ 1 50 ⟨2025, 6, 5⟩)) u.id
          = u.advanceBalance := by
  have h0 : Reachable c3WState :=
    Reachable.init c3WState rfl rfl (by decide) (by decide) (by decide)
  have h1 := Reachable.step c3WState (Op.advanceOp ⟨2, .superadmin⟩ 1 50 ⟨2025, 6, 5⟩) h0
  exact ⟨h1, c3_running_balance _ h1⟩
